import Mathlib

/-!
# Verification of the HTML-to-PPTX structural converter

This file is a shallow embedding, in Lean 4, of the converter implemented in
`backend/app/services/pptx_generator.py`, together with theorems settling the
frozen claims about it.

Modelling conventions:
* Python `float` values are carried in the rational type `Q` below.  `Q`
  keeps an explicit positive denominator and never normalises, so every
  computation of the embedded pipeline reduces inside the kernel; bridge
  lemmas relate it to Mathlib's `ℚ` for algebraic reasoning.  Layout
  arithmetic (parsing decimals, sums, scaling, division by fixed positive
  constants) is carried exactly; the one comparison that is sensitive to
  binary64 rounding — the luminance threshold of `_is_light` — is modelled
  bit-exactly with the correctly rounding `roundDouble`/`fmul`/`fadd`
  below.
* Python exceptions are modelled with `Except PyErr`; the stateful shape
  emission of the renderer (python-pptx mutates the slide in place, so shapes
  added before an exception survive it) is modelled with the state-passing
  monad `RM` whose state — the list of shapes on the current slide — is kept
  when an error is thrown.
* The HTML parse (`lxml_html.fromstring`) is external library code; the input
  of the embedded converter is the parsed element tree `El`.  Attributes,
  direct text and tails mirror lxml's element model, and the `cssselect`
  calls of the source are embedded as document-order descendant-or-self
  filters, which is what the css-to-xpath translation produces for the
  selectors used in the source.
* `pptx.dml.color.RGBColor` is a 3-tuple subclass whose constructor raises
  `ValueError` unless every component is an integer in 0..255; this is
  modelled by `mkRGBColor`.  The serialisation step (`prs.save`) is modelled
  as the identity on the list of rendered slides.
* The Python identity set `processed` of `_positioned_blocks` only ever
  receives elements whose class contains `section-box` or `trend-box`, and
  every such element is skipped unconditionally by the dispatcher's class
  checks; the set is therefore redundant and is not modelled.
-/

deriving instance DecidableEq for Except

namespace Pptx

/-! ## Exact rational arithmetic that reduces in the kernel -/

/-- Unnormalised rational number with a positive denominator.  Models Python
floats exactly for the arithmetic the converter performs. -/
structure Q where
  num : ℤ
  den : ℕ
  dpos : 0 < den
deriving DecidableEq

instance : Repr Q := ⟨fun a _ => repr (a.num, a.den)⟩

instance : OfNat Q n := ⟨⟨(n : ℤ), 1, one_pos⟩⟩

instance : NatCast Q := ⟨fun n => ⟨(n : ℤ), 1, one_pos⟩⟩

instance : IntCast Q := ⟨fun n => ⟨n, 1, one_pos⟩⟩

/-- Decimal literals such as `0.75` denote exact rationals. -/
instance : OfScientific Q :=
  ⟨fun m b e =>
    if b then ⟨(m : ℤ), 10 ^ e, pow_pos (by norm_num) e⟩
    else ⟨(m : ℤ) * 10 ^ e, 1, one_pos⟩⟩

instance : Add Q :=
  ⟨fun a b => ⟨a.num * b.den + b.num * a.den, a.den * b.den, Nat.mul_pos a.dpos b.dpos⟩⟩

instance : Sub Q :=
  ⟨fun a b => ⟨a.num * b.den - b.num * a.den, a.den * b.den, Nat.mul_pos a.dpos b.dpos⟩⟩

instance : Mul Q :=
  ⟨fun a b => ⟨a.num * b.num, a.den * b.den, Nat.mul_pos a.dpos b.dpos⟩⟩

instance : Neg Q := ⟨fun a => ⟨-a.num, a.den, a.dpos⟩⟩

/-- Division by a natural number (every division the converter performs has a
positive natural divisor; division by zero never occurs in reachable code and
is given an arbitrary value). -/
def Q.divN (a : Q) (n : ℕ) : Q :=
  if h : 0 < n then ⟨a.num, a.den * n, Nat.mul_pos a.dpos h⟩ else 0

/-- Python `==` on floats. -/
def Q.beq (a b : Q) : Bool := a.num * b.den = b.num * a.den

/-- Python `<` on floats. -/
def Q.blt (a b : Q) : Bool := a.num * b.den < b.num * a.den

/-- Python `<=` on floats. -/
def Q.ble (a b : Q) : Bool := a.num * b.den ≤ b.num * a.den

/-- Python `math.floor` as used through integer conversion. -/
def Q.fl (a : Q) : ℤ := Int.fdiv a.num a.den

/-- Interpretation into Mathlib's rationals. -/
def Q.toRat (a : Q) : ℚ := (a.num : ℚ) / (a.den : ℚ)

theorem Q.den_ne_zero (a : Q) : (a.den : ℚ) ≠ 0 := by
  exact_mod_cast Nat.pos_iff_ne_zero.mp a.dpos

theorem Q.toRat_add (a b : Q) : (a + b).toRat = a.toRat + b.toRat := by
  have ha := a.den_ne_zero; have hb := b.den_ne_zero
  show ((a.num * b.den + b.num * a.den : ℤ) : ℚ) / ((a.den * b.den : ℕ) : ℚ)
      = a.toRat + b.toRat
  unfold Q.toRat
  push_cast
  field_simp

theorem Q.toRat_sub (a b : Q) : (a - b).toRat = a.toRat - b.toRat := by
  have ha := a.den_ne_zero; have hb := b.den_ne_zero
  show ((a.num * b.den - b.num * a.den : ℤ) : ℚ) / ((a.den * b.den : ℕ) : ℚ)
      = a.toRat - b.toRat
  unfold Q.toRat
  push_cast
  field_simp
  ring

theorem Q.toRat_mul (a b : Q) : (a * b).toRat = a.toRat * b.toRat := by
  have ha := a.den_ne_zero; have hb := b.den_ne_zero
  show ((a.num * b.num : ℤ) : ℚ) / ((a.den * b.den : ℕ) : ℚ) = a.toRat * b.toRat
  unfold Q.toRat
  push_cast
  field_simp

theorem Q.toRat_divN (a : Q) (n : ℕ) (hn : 0 < n) :
    (a.divN n).toRat = a.toRat / (n : ℚ) := by
  have ha := a.den_ne_zero
  have hn0 : (n : ℚ) ≠ 0 := by exact_mod_cast Nat.pos_iff_ne_zero.mp hn
  unfold Q.divN Q.toRat
  rw [dif_pos hn]
  push_cast
  field_simp

theorem Q.toRat_ofNat (n : ℕ) [n.AtLeastTwo] :
    (OfNat.ofNat n : Q).toRat = OfNat.ofNat n := by
  show ((n : ℤ) : ℚ) / ((1 : ℕ) : ℚ) = OfNat.ofNat n
  rw [Nat.cast_one, div_one]
  exact_mod_cast rfl

theorem Q.toRat_zero : (0 : Q).toRat = 0 := by
  show ((0 : ℤ) : ℚ) / ((1 : ℕ) : ℚ) = 0
  norm_num

theorem Q.toRat_one : (1 : Q).toRat = 1 := by
  show ((1 : ℤ) : ℚ) / ((1 : ℕ) : ℚ) = 1
  norm_num

theorem Q.toRat_natCast (n : ℕ) : (n : Q).toRat = (n : ℚ) := by
  show ((n : ℤ) : ℚ) / ((1 : ℕ) : ℚ) = _
  norm_num

theorem Q.beq_iff (a b : Q) : a.beq b = true ↔ a.toRat = b.toRat := by
  have ha : (0 : ℚ) < a.den := by exact_mod_cast a.dpos
  have hb : (0 : ℚ) < b.den := by exact_mod_cast b.dpos
  unfold Q.beq Q.toRat
  rw [div_eq_div_iff ha.ne' hb.ne']
  constructor
  · intro h
    have h' : (a.num * b.den : ℤ) = b.num * a.den := by exact_mod_cast of_decide_eq_true h
    exact_mod_cast congrArg (fun z : ℤ => (z : ℚ)) h'
  · intro h
    have h' : (a.num * b.den : ℤ) = b.num * a.den := by exact_mod_cast h
    simpa using h'

theorem Q.blt_iff (a b : Q) : a.blt b = true ↔ a.toRat < b.toRat := by
  have ha : (0 : ℚ) < a.den := by exact_mod_cast a.dpos
  have hb : (0 : ℚ) < b.den := by exact_mod_cast b.dpos
  unfold Q.blt Q.toRat
  rw [div_lt_div_iff₀ ha hb]
  constructor
  · intro h
    have h' : (a.num * b.den : ℤ) < b.num * a.den := of_decide_eq_true h
    exact_mod_cast h'
  · intro h
    have h' : (a.num * b.den : ℤ) < b.num * a.den := by exact_mod_cast h
    simpa using h'

theorem Q.ble_iff (a b : Q) : a.ble b = true ↔ a.toRat ≤ b.toRat := by
  have ha : (0 : ℚ) < a.den := by exact_mod_cast a.dpos
  have hb : (0 : ℚ) < b.den := by exact_mod_cast b.dpos
  unfold Q.ble Q.toRat
  rw [div_le_div_iff₀ ha hb]
  constructor
  · intro h
    have h' : (a.num * b.den : ℤ) ≤ b.num * a.den := of_decide_eq_true h
    exact_mod_cast h'
  · intro h
    have h' : (a.num * b.den : ℤ) ≤ b.num * a.den := by exact_mod_cast h
    simpa using h'

/-! ## Python string primitives -/

/-- Whitespace characters stripped by Python's `str.strip()`. -/
def pySpace (c : Char) : Bool :=
  c = ' ' ∨ c = '\t' ∨ c = '\n' ∨ c = '\r' ∨ c = Char.ofNat 11 ∨ c = Char.ofNat 12

/-- Python `str.strip()` on a character list. -/
def stripList (cs : List Char) : List Char :=
  ((cs.dropWhile pySpace).reverse.dropWhile pySpace).reverse

/-- Python `str.strip()`. -/
def pyStrip (s : String) : String := ⟨stripList s.data⟩

/-- Python `str.strip(chars)`: strip any of the given characters from both ends. -/
def pyStripChars (chars : List Char) (s : String) : String :=
  ⟨((s.data.dropWhile (chars.contains ·)).reverse.dropWhile (chars.contains ·)).reverse⟩

/-- Python `str.lower()` (ASCII case folding, which is all the source needs). -/
def pyLower (s : String) : String := ⟨s.data.map Char.toLower⟩

/-- Decide whether `pat` occurs as a contiguous sublist of `cs`. -/
def listHasInfix (pat : List Char) : List Char → Bool
  | [] => pat.isEmpty
  | c :: cs => pat.isPrefixOf (c :: cs) ∨ listHasInfix pat cs

/-- Python `needle in hay` on strings (substring containment). -/
def strContains (hay needle : String) : Bool :=
  listHasInfix needle.data hay.data

/-- Python `a or b` on strings: `a` if non-empty, else `b`. -/
def pyOrS (a b : String) : String := if a = "" then b else a

/-- Python `a or b` on optional values whose truthy case is `some`
(an `RGBColor` is a non-empty tuple and hence always truthy). -/
def pyOrO {α : Type} (a b : Option α) : Option α :=
  match a with
  | some x => some x
  | none => b

/-- Python `a or b` where `a : Q` models a float (`0.0` is falsy). -/
def pyOrQ (a b : Q) : Q := if a.beq 0 then b else a

/-- Python `str.split()` with no argument: split on whitespace runs,
discarding empty pieces. -/
def pySplitWs (s : String) : List String :=
  ((s.data.splitOnP pySpace).map (fun cs => (⟨cs⟩ : String))).filter (· ≠ "")

/-- Python `s.split(sep)` for a single-character separator (keeps empty
pieces). -/
def pySplitChar (sep : Char) (s : String) : List String :=
  (s.data.splitOnP (· = sep)).map (fun cs => (⟨cs⟩ : String))

/-- Python `part.split(':', 1)`: split at the first colon, if any. -/
def splitFirstColon (s : String) : Option (String × String) :=
  match s.data.splitOnP (· = ':') with
  | [] => none
  | [_] => none
  | k :: rest => some (⟨k⟩, ⟨(rest.intersperse [':']).flatten⟩)

/-! ## Python numeric primitives -/

structure PyErr where
  kind : String
  msg : String
deriving DecidableEq, Repr

/-- Leading maximal run of characters matched by the regex class `[\d.]`. -/
def numRun (cs : List Char) : List Char :=
  cs.takeWhile (fun c => c.isDigit ∨ c = '.')

/-- A numeric literal accepted by Python's `float()` among strings drawn from
`[\d.]+`: at least one digit and at most one dot. -/
def numValid (cs : List Char) : Bool :=
  cs.any (·.isDigit) ∧ (cs.filter (· = '.')).length ≤ 1

/-- Value of a digit list read in base 10. -/
def digitsVal (cs : List Char) : ℕ :=
  cs.foldl (fun acc c => 10 * acc + (c.toNat - '0'.toNat)) 0

/-- Rational value of a `[\d.]+` literal that `numValid` accepts
(`"12."`, `".5"`, `"070"` are all allowed, as in Python). -/
def ratOfNum (cs : List Char) : Q :=
  let intPart := cs.takeWhile (· ≠ '.')
  let fracPart := (cs.dropWhile (· ≠ '.')).drop 1
  (digitsVal intPart : Q) + (Q.divN (digitsVal fracPart : Q) (10 ^ fracPart.length))

/-- Python `float(run)` for a run drawn from `[\d.]+`; raises `ValueError`
exactly when Python does (e.g. on `"1.2.3"` or `"."`). -/
def pyFloat (cs : List Char) : Except PyErr Q :=
  if numValid cs then .ok (ratOfNum cs)
  else .error ⟨"ValueError", "could not convert string to float"⟩

/-- Embedding of `_px`: `re.match(r'([\d.]+)', v.strip())`, then `float` of the
match, else `0`.  The float conversion can raise on inputs like `"1.2.3"`. -/
def px (v : String) : Except PyErr Q :=
  let run := numRun (pyStrip v).data
  if run.isEmpty then .ok 0 else pyFloat run

/-- Embedding of `_pct`: `re.match(r'([\d.]+)\s*%', v.strip())`.  Only the
maximal leading `[\d.]+` run can be followed by optional spaces and `%`
(shorter backtracked runs would have a digit or dot where `%` is required). -/
def pct (v : String) : Except PyErr Q :=
  let s := (pyStrip v).data
  let run := numRun s
  let rest := (s.drop run.length).dropWhile pySpace
  if run.isEmpty then .ok 0
  else match rest with
    | '%' :: _ => pyFloat run
    | _ => .ok 0

/-- Python `round()` (banker's rounding: ties go to the even integer). -/
def pyRound (q : Q) : ℤ :=
  let f := q.fl
  let r := q - (f : Q)
  if r.blt 0.5 then f
  else if (0.5 : Q).blt r then f + 1
  else if f % 2 = 0 then f else f + 1

/-- Python `int()` truncation toward zero (arguments here are non-negative). -/
def pyInt (q : Q) : ℤ := if (0 : Q).ble q then q.fl else -(Q.fl (-q))

/-! ## Canvas constants -/

def SLIDE_W_PX : Q := 960
def SLIDE_H_PX : Q := 540

/-- `_SCALE = SLIDE_W_IN / SLIDE_W_PX` (inches per CSS pixel, `10.0 / 960`). -/
def SCALE : Q := Q.divN 10 960

/-- Embedding of `E`: CSS pixels → EMU, `int(round(px * _SCALE * 914400))`. -/
def E (p : Q) : ℤ := pyRound (p * SCALE * 914400)

/-! ## Color model -/

structure RGB where
  r : ℕ
  g : ℕ
  b : ℕ
deriving DecidableEq, Repr

/-- `pptx.dml.color.RGBColor` constructor: a 3-tuple of integers, each of
which must lie in 0..255, otherwise `ValueError` is raised. -/
def mkRGBColor (r g b : ℕ) : Except PyErr RGB :=
  if r ≤ 255 ∧ g ≤ 255 ∧ b ≤ 255 then .ok ⟨r, g, b⟩
  else .error ⟨"ValueError", "RGBColor() takes three integer values 0-255"⟩

def FALLBACK_WHITE : RGB := ⟨0xFF, 0xFF, 0xFF⟩
def FALLBACK_BLACK33 : RGB := ⟨0x33, 0x33, 0x33⟩
def FALLBACK_GREY66 : RGB := ⟨0x66, 0x66, 0x66⟩
def FALLBACK_GREY_CC : RGB := ⟨0xCC, 0xCC, 0xCC⟩
def FALLBACK_TEAL : RGB := ⟨0x00, 0x62, 0x72⟩
def FALLBACK_RED_BULL : RGB := ⟨0xCC, 0x00, 0x00⟩
def FALLBACK_FONT : String := "Arial"

/-- Value of a lowercase hexadecimal digit. -/
def hexVal (c : Char) : ℕ :=
  if c.isDigit then c.toNat - '0'.toNat
  else if 'a' ≤ c ∧ c ≤ 'f' then c.toNat - 'a'.toNat + 10
  else 0

def isLowHex (c : Char) : Bool := c.isDigit ∨ ('a' ≤ c ∧ c ≤ 'f')

/-- Match the regex `#([0-9a-f]{6})$` against an already lowercased,
stripped string. -/
def matchHex6 (cs : List Char) : Option (ℕ × ℕ × ℕ) :=
  match cs with
  | ['#', a, b, c, d, e, f] =>
    if isLowHex a ∧ isLowHex b ∧ isLowHex c ∧ isLowHex d ∧ isLowHex e ∧ isLowHex f then
      some (16 * hexVal a + hexVal b, 16 * hexVal c + hexVal d, 16 * hexVal e + hexVal f)
    else none
  | _ => none

/-- Match the regex `#([0-9a-f]{3})$`; each digit is doubled (`int(h[0]*2, 16)`). -/
def matchHex3 (cs : List Char) : Option (ℕ × ℕ × ℕ) :=
  match cs with
  | ['#', a, b, c] =>
    if isLowHex a ∧ isLowHex b ∧ isLowHex c then
      some (16 * hexVal a + hexVal a, 16 * hexVal b + hexVal b, 16 * hexVal c + hexVal c)
    else none
  | _ => none

/-- Expect a literal character, consuming it. -/
def expectChar (c : Char) : List Char → Option (List Char)
  | x :: rest => if x = c then some rest else none
  | [] => none

/-- Consume `\s*(\d+)` returning its integer value. -/
def takeNum (cs : List Char) : Option (ℕ × List Char) :=
  let cs := cs.dropWhile pySpace
  let ds := cs.takeWhile (·.isDigit)
  if ds.isEmpty then none else some (digitsVal ds, cs.drop ds.length)

/-- Match `PRE\s*(\d+)\s*,\s*(\d+)\s*,\s*(\d+)` as an (unanchored-tail)
prefix of `cs`, as `re.match` does for the source's `rgb(`/`rgba(` patterns
(no closing parenthesis is required). -/
def matchRgbTriple (pre : List Char) (cs : List Char) : Option (ℕ × ℕ × ℕ) := do
  let cs ← if pre.isPrefixOf cs then some (cs.drop pre.length) else none
  let (a, cs) ← takeNum cs
  let cs ← expectChar ',' (cs.dropWhile pySpace)
  let (b, cs) ← takeNum cs
  let cs ← expectChar ',' (cs.dropWhile pySpace)
  let (c, _) ← takeNum cs
  some (a, b, c)

/-- Embedding of `_parse_color`.  Returns `none` for unparseable input, but
propagates the `ValueError` that `RGBColor` raises on out-of-range `rgb()` /
`rgba()` components. -/
def parseColor (s : String) : Except PyErr (Option RGB) :=
  if s = "" then .ok none
  else
    let t := pyLower (pyStrip s)
    if t = "white" then .ok (some FALLBACK_WHITE)
    else if t = "black" then .ok (some ⟨0, 0, 0⟩)
    else if t = "red" then .ok (some ⟨0xFF, 0, 0⟩)
    else if t = "green" then .ok (some ⟨0, 0x80, 0⟩)
    else if t = "blue" then .ok (some ⟨0, 0, 0xFF⟩)
    else if t = "transparent" then .ok none
    else match matchHex6 t.data with
    | some (r, g, b) => do pure (some (← mkRGBColor r g b))
    | none => match matchHex3 t.data with
      | some (r, g, b) => do pure (some (← mkRGBColor r g b))
      | none => match matchRgbTriple "rgb(".data t.data with
        | some (r, g, b) => do pure (some (← mkRGBColor r g b))
        | none => match matchRgbTriple "rgba(".data t.data with
          | some (r, g, b) => do pure (some (← mkRGBColor r g b))
          | none => .ok none

/-! Binary64 rounding.  `_is_light` computes its luminance in Python floats
and compares with 180; the comparison is sensitive at the threshold (the
float sum can exceed 180 where the exact sum equals it), so this one
computation is modelled bit-exactly.  A finite IEEE double is an exact
rational; `roundDouble` maps an exact rational to the nearest representable
double (53-bit significand, round to nearest, ties to even), which makes
`fmul`/`fadd` exactly the IEEE-754 `*`/`+` of exactly-represented operands.
Every value in `_is_light` lies well inside `[2^-75, 2^75)`, so overflow
and subnormals cannot arise and the fueled exponent search below is exact
on all reachable inputs. -/

def pow2Q (e : ℤ) : Q :=
  if 0 ≤ e then ⟨((2 ^ e.toNat : ℕ) : ℤ), 1, one_pos⟩
  else ⟨1, 2 ^ (-e).toNat, pow_pos (by norm_num) _⟩

def floorLog2Go (q : Q) : ℕ → ℤ → ℤ
  | 0, k => k
  | fuel + 1, k => if (pow2Q (k + 1)).ble q then floorLog2Go q fuel (k + 1) else k

/-- Largest `k ≥ -75` with `2^k ≤ q`, exact for `q ∈ [2^-75, 2^75)`. -/
def floorLog2 (q : Q) : ℤ := floorLog2Go q 150 (-75)

/-- Nearest integer, ties to even. -/
def roundToEvenQ (q : Q) : ℤ :=
  let n := q.fl
  let frac := q - (n : Q)
  if frac.blt (0.5 : Q) then n
  else if (0.5 : Q).blt frac then n + 1
  else if n % 2 = 0 then n else n + 1

def roundDoublePos (q : Q) : Q :=
  let e : ℤ := floorLog2 q - 52
  let n := roundToEvenQ (q * pow2Q (-e))
  (n : Q) * pow2Q e

/-- The IEEE binary64 double nearest to `q` (round to nearest, ties to
even), as the exact rational it denotes. -/
def roundDouble (q : Q) : Q :=
  if (0 : Q).blt q then roundDoublePos q
  else if q.blt 0 then - roundDoublePos (- q)
  else 0

/-- IEEE double multiplication of exactly represented operands. -/
def fmul (a b : Q) : Q := roundDouble (a * b)

/-- IEEE double addition of exactly represented operands. -/
def fadd (a b : Q) : Q := roundDouble (a + b)

/-- The luminance `0.299 * c[0] + 0.587 * c[1] + 0.114 * c[2]` of
`_is_light`, evaluated as Python evaluates it: each literal is the double
nearest that decimal, the integer channels convert to doubles exactly, and
each product and each (left-associated) addition is one correctly rounded
binary64 operation. -/
def luminance (c : RGB) : Q :=
  fadd (fadd (fmul (roundDouble 0.299) (c.r : Q)) (fmul (roundDouble 0.587) (c.g : Q)))
    (fmul (roundDouble 0.114) (c.b : Q))

/-- Embedding of `_is_light`: the float luminance strictly above 180
(`180.0` is exactly representable, so the float comparison coincides with
the rational comparison of the doubles' exact values). -/
def isLight (c : RGB) : Bool := (180 : Q).blt (luminance c)

/-- Embedding of `_parse_border_color`: try the whitespace-separated tokens of
the shorthand from the last to the first, returning the first one that parses
to a (truthy) colour; colour-parse exceptions propagate. -/
def parseBorderColor (s : String) : Except PyErr (Option RGB) :=
  if s = "" then .ok none
  else
    let parts := (pySplitWs (pyStrip s)).reverse
    parts.foldlM
      (fun acc p => match acc with
        | some c => pure (some c)
        | none => parseColor p)
      none

/-! ## Element tree (the lxml document model)

`El` mirrors an lxml element: tag, attribute list, direct text, children and
tail text.  `Els` is an inlined child list so that every recursive traversal
is structural and reduces inside the kernel. -/

mutual
inductive El where
  | mk (tag : String) (attrs : List (String × String)) (text : String)
       (children : Els) (tail : String)
deriving DecidableEq
inductive Els where
  | nil
  | cons (e : El) (es : Els)
deriving DecidableEq
end

def El.tag : El → String
  | .mk t _ _ _ _ => t

def El.attrs : El → List (String × String)
  | .mk _ a _ _ _ => a

def El.text : El → String
  | .mk _ _ x _ _ => x

def El.children : El → Els
  | .mk _ _ _ cs _ => cs

def El.tail : El → String
  | .mk _ _ _ _ tl => tl

def Els.toList : Els → List El
  | .nil => []
  | .cons e es => e :: es.toList

/-- lxml `el.get(k)`. -/
def El.attr (e : El) (k : String) : Option String :=
  (e.attrs.find? (·.1 = k)).map (·.2)

/-- lxml `el.get(k, default)`. -/
def attrD (e : El) (k d : String) : String := (e.attr k).getD d

/- All descendants of an element in document order, the element included
(the `descendant-or-self` axis produced by css-to-xpath translation). -/
mutual
def descAll : El → List El
  | .mk t a x cs tl => .mk t a x cs tl :: descAllL cs
def descAllL : Els → List El
  | .nil => []
  | .cons e es => descAll e ++ descAllL es
end

/- lxml `el.text_content()`: own text plus, recursively, each child's text
content followed by its tail. -/
mutual
def textContent : El → String
  | .mk _ _ x cs _ => x ++ textL cs
def textL : Els → String
  | .nil => ""
  | .cons (.mk t a x cs tl) es => textContent (El.mk t a x cs tl) ++ tl ++ textL es
end

/-- CSS class token match: the `class` attribute, whitespace-split, contains
the token (`cssselect` requires the attribute to be present; an absent
attribute yields no tokens). -/
def hasClassTok (e : El) (tok : String) : Bool :=
  (pySplitWs (attrD e "class" "")).contains tok

/-- `el.cssselect('.tok')`. -/
def selClass (tok : String) (e : El) : List El :=
  (descAll e).filter (fun d => hasClassTok d tok)

/-- `el.cssselect('tag')`. -/
def selTag (t : String) (e : El) : List El :=
  (descAll e).filter (fun d => d.tag = t)

/-- `el.cssselect('tag.tok')`. -/
def selTagClass (t tok : String) (e : El) : List El :=
  (descAll e).filter (fun d => d.tag = t ∧ hasClassTok d tok)

/-- `el.cssselect('th, td')` (document order, no duplicates). -/
def selCells (e : El) : List El :=
  (descAll e).filter (fun d => d.tag = "th" ∨ d.tag = "td")

/-- `el.cssselect('span[style]')`. -/
def selSpanStyle (e : El) : List El :=
  (descAll e).filter (fun d => d.tag = "span" ∧ (d.attr "style").isSome)

/-- `el.cssselect('div[style]')`. -/
def selDivStyle (e : El) : List El :=
  (descAll e).filter (fun d => d.tag = "div" ∧ (d.attr "style").isSome)

/-- `el.cssselect('a.link-text')`. -/
def selALink (e : El) : List El := selTagClass "a" "link-text" e

/-! ## Style dictionaries and the stylesheet -/

/-- A Python dict of CSS properties: insertion-ordered association list with
unique keys (assignment replaces in place). -/
abbrev Dict := List (String × String)

def dGet (d : Dict) (k : String) : Option String :=
  (d.find? (·.1 = k)).map (·.2)

def dGetD (d : Dict) (k df : String) : String := (dGet d k).getD df

/-- Python `k in d` (key membership). -/
def dMem (d : Dict) (k : String) : Bool := (dGet d k).isSome

/-- Python `d[k] = v`: replace in place, else append. -/
def dSet (d : Dict) (k v : String) : Dict :=
  if dMem d k then d.map (fun p => if p.1 = k then (k, v) else p) else d ++ [(k, v)]

/-- Python `d.update(src)`. -/
def dUpdate (d src : Dict) : Dict :=
  src.foldl (fun acc p => dSet acc p.1 p.2) d

/-- Python `'needle' in str(d)`: the needle occurs in the dict's repr, i.e.
inside some key or value (the repr's quoting separators cannot take part in
an occurrence of the property names this is used with). -/
def dReprContains (d : Dict) (needle : String) : Bool :=
  d.any (fun p => strContains p.1 needle ∨ strContains p.2 needle)

/-- Embedding of `_sty`: parse an inline `style` attribute into a dict. -/
def sty (e : El) : Dict :=
  (pySplitChar ';' (attrD e "style" "")).foldl
    (fun acc part =>
      match splitFirstColon part with
      | none => acc
      | some (k, v) => dSet acc (pyLower (pyStrip k)) (pyStrip v))
    []

/-- The parsed stylesheet `selector → properties` of `_parse_stylesheet`. -/
abbrev SS := List (String × Dict)

def ssFind (ss : SS) (sel : String) : Option Dict :=
  (ss.find? (·.1 = sel)).map (·.2)

/-- Python `ss[sel] = props`. -/
def ssSet (ss : SS) (sel : String) (props : Dict) : SS :=
  if (ssFind ss sel).isSome then ss.map (fun p => if p.1 = sel then (sel, props) else p)
  else ss ++ [(sel, props)]

/-- Embedding of `_ss_get`: merge the rules of the listed selectors, later
selectors winning. -/
def ssGet (ss : SS) (sels : List String) : Dict :=
  sels.foldl
    (fun merged sel =>
      match ssFind ss sel with
      | some props => dUpdate merged props
      | none => merged)
    []

/-- Embedding of `_bg_color`. -/
def bgColor (d : Dict) : Except PyErr (Option RGB) :=
  parseColor (pyOrS (dGetD d "background" "") (dGetD d "background-color" ""))

/-- Embedding of `_resolve_width`: empty value → default; positive leading
number → that number (this branch fires even for percentage strings, whose
numeric prefix is positive); else a `%` value → fraction of the container;
else default. -/
def resolveWidth (d : Dict) (key : String) (default : Q) (containerW : Q) :
    Except PyErr Q := do
  let val := dGetD d key ""
  if val = "" then
    pure default
  else
    let pxv ← px val
    if (0 : Q).blt pxv then
      pure pxv
    else if strContains val "%" then
      let p ← pct val
      pure ((containerW * p).divN 100)
    else
      pure default

def lbrace : Char := Char.ofNat 123
def rbrace : Char := Char.ofNat 125

/-- Split a list at the first occurrence of `pat`, returning the parts before
and after it. -/
def splitAtInfix (pat : List Char) : List Char → Option (List Char × List Char)
  | [] => if pat.isEmpty then some ([], []) else none
  | c :: cs =>
    if pat.isPrefixOf (c :: cs) then some ([], (c :: cs).drop pat.length)
    else match splitAtInfix pat cs with
      | some (pre, post) => some (c :: pre, post)
      | none => none

/-- Strip `/* ... */` comments (`re.sub(r'/\*.*?\*/', '', raw, flags=DOTALL)`):
each match runs from a `/*` to the first following `*/`; an unclosed `/*`
matches nothing.  The fuel is the input length; every step consumes at least
the two characters of `/*`. -/
def stripCommentsGo : ℕ → List Char → List Char
  | 0, cs => cs
  | n + 1, cs =>
    match splitAtInfix "/*".data cs with
    | none => cs
    | some (pre, rest) =>
      match splitAtInfix "*/".data rest with
      | none => cs
      | some (_, post) => pre ++ stripCommentsGo n post

def stripComments (s : String) : String :=
  ⟨stripCommentsGo s.data.length s.data⟩

/-- All matches of `([^{}]+)\{([^}]*)\}` in order (`re.finditer`): a maximal
brace-free run directly before a `{`, and a body running to the first `}`.
The fuel is the input length; every step consumes at least one character. -/
def cssBlocksGo : ℕ → List Char → List (String × String)
  | 0, _ => []
  | n + 1, cs =>
    match splitAtInfix [lbrace] cs with
    | none => []
    | some (before, after) =>
      let sel := (before.reverse.takeWhile (· ≠ rbrace)).reverse
      if sel.isEmpty then cssBlocksGo n after
      else match splitAtInfix [rbrace] after with
        | none => []
        | some (body, rest) => ((⟨sel⟩ : String), (⟨body⟩ : String)) :: cssBlocksGo n rest

def cssBlocks (s : String) : List (String × String) :=
  cssBlocksGo s.data.length s.data

/-- Parse one rule body (`prop: value; ...`) into a dict. -/
def parseProps (body : String) : Dict :=
  (pySplitChar ';' body).foldl
    (fun props decl =>
      match splitFirstColon decl with
      | none => props
      | some (k, v) => dSet props (pyLower (pyStrip k)) (pyStrip v))
    []

/-- Embedding of `_parse_stylesheet` restricted to one raw `<style>` text. -/
def parseStylesheetText (raw : String) (ss₀ : SS) : SS :=
  (cssBlocks (stripComments raw)).foldl
    (fun ss selBody =>
      let selectors := pyStrip selBody.1
      let props := parseProps (pyStrip selBody.2)
      (pySplitChar ',' selectors).foldl (fun ss sel => ssSet ss (pyStrip sel) props) ss)
    ss₀

/-- Embedding of `_parse_stylesheet`: scan every `<style>` element. -/
def parseStylesheet (doc : El) : SS :=
  (selTag "style" doc).foldl
    (fun ss styleEl => parseStylesheetText (textContent styleEl) ss)
    []

/-- Embedding of `_resolve_font` for one `font-family` value. -/
def resolveFontOne (ff : String) : Option String :=
  if ff = "" then none
  else
    let first := pyStripChars ['\'', '"'] (pyStrip ((pySplitChar ',' ff).headD ""))
    if first ≠ "" ∧ first ≠ "-apple-system" then some first
    else
      let parts := (pySplitChar ',' ff).map (fun p => pyStripChars ['\'', '"'] (pyStrip p))
      parts.find? (fun p => p ≠ "" ∧ p ≠ "-apple-system" ∧ p ≠ "BlinkMacSystemFont")

/-- Embedding of `_resolve_font`: `body` first, then `.slide`, else Arial. -/
def resolveFont (ss : SS) : String :=
  match resolveFontOne (dGetD ((ssFind ss "body").getD []) "font-family" "") with
  | some f => f
  | none =>
    match resolveFontOne (dGetD ((ssFind ss ".slide").getD []) "font-family" "") with
    | some f => f
    | none => FALLBACK_FONT

/-! ## Native shapes and the rendering monad -/

inductive Align where
  | left
  | center
  | right
deriving DecidableEq, Repr

/-- A text run with the font properties the source sets. -/
structure Run where
  text : String
  size : Q
  bold : Bool
  italic : Bool
  underline : Bool
  color : Option RGB
  font : String
deriving DecidableEq, Repr

/-- A table cell after the source's per-cell mutations (`_cell_fill`,
`_cell_border`, margins).  `borderColor = none` models a cell whose borders
were never set. -/
structure TCell where
  runs : List Run
  align : Align
  fill : Option RGB
  borderColor : Option RGB
  borderWidth : ℤ
  borderDash : Bool
  marginL : ℤ
  marginR : ℤ
  marginT : ℤ
  marginB : ℤ
deriving DecidableEq, Repr

/-- A fresh cell as `add_table` creates it (python-pptx default margins). -/
def TCell.init : TCell := ⟨[], .left, none, none, 0, false, 91440, 91440, 45720, 45720⟩

/-- The native shapes the renderer emits.  All coordinates are EMU, computed
through `E` exactly as in the source. -/
inductive Shape where
  | rect (left top w h : ℤ) (fill : Option RGB) (lineColor : Option RGB) (lineW : Option ℤ)
  | roundRect (left top w h : ℤ) (fill : RGB)
  | textbox (left top w h : ℤ) (wrap : Bool) (anchorCtr : Bool) (align : Align) (runs : List Run)
  | table (left top w h : ℤ) (nRows nCols : ℕ) (colWidths : List ℤ) (cells : List (List TCell))
deriving DecidableEq, Repr

/-- Rendering monad: state is the list of shapes already added to the pptx
slide.  The state survives a raised exception, exactly as the mutated slide
does in Python. -/
def RM (α : Type) : Type := List Shape → (Except PyErr α) × List Shape

instance : Monad RM where
  pure a := fun s => (.ok a, s)
  bind x f := fun s =>
    match x s with
    | (.error e, s') => (.error e, s')
    | (.ok a, s') => f a s'

def RM.run {α : Type} (m : RM α) : (Except PyErr α) × List Shape := m []

def emit (sh : Shape) : RM Unit := fun s => (.ok (), s ++ [sh])

def throwP {α : Type} (e : PyErr) : RM α := fun s => (.error e, s)

def liftE {α : Type} : Except PyErr α → RM α
  | .ok a => pure a
  | .error e => throwP e

/-- Mutate the most recently added shape (the source only ever mutates the
shape it just created, before creating another). -/
def modifyLast (f : Shape → Shape) : RM Unit := fun s =>
  (.ok (), s.dropLast ++ (s.getLast?.map f).toList)

/-- `pptx.util.Pt` in EMU. -/
def ptEmu (x : Q) : ℤ := pyInt (x * 12700)

/-- Embedding of `_rect`: rectangle with optional solid fill and optional
outline (the line width is only set when a line colour is). -/
def rectS (left top w h : Q) (fill : Option RGB) (lineColor : Option RGB)
    (lineW : Option ℤ) : RM Unit :=
  emit (.rect (E left) (E top) (E w) (E h) fill lineColor
    (match lineColor with | some _ => lineW | none => none))

/-- Embedding of `_textbox`: a textbox with zero insets, optional centre
anchor, and a single run when `text` is non-empty. -/
def textboxS (left top w h : Q) (text : String) (size : Q) (bold : Bool)
    (color : RGB) (align : Align) (font : String) (wrap : Bool)
    (valignCtr : Bool) : RM Unit :=
  emit (.textbox (E left) (E top) (E w) (E h) wrap valignCtr align
    (if text ≠ "" then [⟨text, size, bold, false, false, some color, font⟩] else []))

/-- Embedding of `_add_run` targeting the paragraph of the shape just
created. -/
def addRunLast (text : String) (size : Q) (bold : Bool) (color : RGB)
    (font : String) : RM Unit :=
  modifyLast (fun sh =>
    match sh with
    | .textbox l t w h wr a al runs =>
      .textbox l t w h wr a al (runs ++ [⟨text, size, bold, false, false, some color, font⟩])
    | other => other)

/-- `_add_run` followed by `r.font.italic = True`. -/
def addRunItalicLast (text : String) (size : Q) : RM Unit :=
  modifyLast (fun sh =>
    match sh with
    | .textbox l t w h wr a al runs =>
      .textbox l t w h wr a al
        (runs ++ [⟨text, size, false, true, false, some FALLBACK_BLACK33, FALLBACK_FONT⟩])
    | other => other)

/-! ## Rich inline text (`_render_rich`) -/

/-- The colored-dot glyph `●`. -/
def dotStr : String := "●"

/-- One entry of the `parts` list of `_render_rich`. -/
inductive RPart where
  | n (t : String)
  | b (t : String)
  | i (t : String)
  | c (t : String) (col : Option RGB)
deriving DecidableEq, Repr

def RPart.text : RPart → String
  | .n t => t
  | .b t => t
  | .i t => t
  | .c t _ => t

/-- Parts contributed by one child of the walked element, including the
child's tail text. -/
def richPartsOne (sub : El) (skipBlocks : Bool) : Except PyErr (List RPart) :=
  let tailParts : List RPart := if sub.tail ≠ "" then [.n sub.tail] else []
  if skipBlocks ∧ (sub.tag = "ul" ∨ sub.tag = "div" ∨ sub.tag = "table") then
    .ok tailParts
  else if sub.tag = "strong" ∨ sub.tag = "b" then
    .ok ([.b (textContent sub)] ++ tailParts)
  else if sub.tag = "em" ∨ sub.tag = "i" then
    .ok ([.i (textContent sub)] ++ tailParts)
  else if sub.tag = "span" then do
    let ssd := sty sub
    let bg := pyOrS (dGetD ssd "background" "") (dGetD ssd "background-color" "")
    if bg ≠ "" ∧ (dReprContains ssd "border-radius" ∨ dMem ssd "display") then do
      let cc ← parseColor bg
      pure ((match cc with | some c => [RPart.c dotStr (some c)] | none => []) ++ tailParts)
    else
      let txt := pyStrip (textContent sub)
      if txt = dotStr then do
        let c ← parseColor (dGetD ssd "color" "")
        pure ((match c with | some c' => [RPart.c dotStr (some c')] | none => []) ++ tailParts)
      else if txt = "" then
        pure tailParts
      else do
        let c ← parseColor (dGetD ssd "color" "")
        pure ([RPart.c (textContent sub) c] ++ tailParts)
  else
    .ok ([.n (textContent sub)] ++ tailParts)

/-- The full `parts` list of `_render_rich` (collection phase; colour parses
can raise before any run is added). -/
def richParts (el : El) (skipBlocks : Bool) : Except PyErr (List RPart) :=
  (el.children.toList).foldlM
    (fun acc sub => do pure (acc ++ (← richPartsOne sub skipBlocks)))
    (if el.text ≠ "" then [RPart.n el.text] else [])

/-- Emission phase of `_render_rich`: one run per part, skipping blank text;
`_add_run` uses its default font (Arial), not the resolved slide font. -/
def emitRichRuns (parts : List RPart) (pt : Q) (skipBlocks : Bool) : RM Unit :=
  parts.forM (fun p => do
    let txt := p.text
    let txt := if skipBlocks then pyStripChars ['\n'] txt else txt
    if pyStrip txt = "" then pure ()
    else
      match p with
      | .b _ => addRunLast txt pt true FALLBACK_BLACK33 FALLBACK_FONT
      | .i _ => addRunItalicLast txt pt
      | .c _ (some col) => addRunLast txt pt false col FALLBACK_FONT
      | .c _ none => addRunLast txt pt false FALLBACK_BLACK33 FALLBACK_FONT
      | .n _ => addRunLast txt pt false FALLBACK_BLACK33 FALLBACK_FONT)

/-- Embedding of `_render_rich`, writing runs into the shape just created. -/
def renderRich (el : El) (pt : Q) (skipBlocks : Bool) : RM Unit := do
  let parts ← liftE (richParts el skipBlocks)
  if parts.isEmpty then
    let clean := pyStrip (textContent el)
    if clean ≠ "" then addRunLast clean pt false FALLBACK_BLACK33 FALLBACK_FONT
    else pure ()
  else
    emitRichRuns parts pt skipBlocks

/-! ## Pattern detectors -/

/-- Embedding of `_circle_color`: first span with a parseable background
colour, else — when a span has a colour style and a dot glyph in its direct
text — that colour's parse result (returned even when it is `none`). -/
def circleColorGo : List El → Except PyErr (Option RGB)
  | [] => .ok none
  | span :: rest => do
    let ssd := sty span
    let bg := pyOrS (dGetD ssd "background" "") (dGetD ssd "background-color" "")
    if bg ≠ "" then do
      match ← parseColor bg with
      | some c => pure (some c)
      | none =>
        if dGetD ssd "color" "" ≠ "" ∧ strContains span.text dotStr then
          parseColor (dGetD ssd "color" "")
        else circleColorGo rest
    else
      if dGetD ssd "color" "" ≠ "" ∧ strContains span.text dotStr then
        parseColor (dGetD ssd "color" "")
      else circleColorGo rest

def circleColor (el : El) : Except PyErr (Option RGB) :=
  circleColorGo (selSpanStyle el)

/-- Inner loop of `_has_progress_bar`. -/
def hasProgressBarInner : List El → Except PyErr Bool
  | [] => .ok false
  | inner :: rest =>
    if inner.tag ≠ "div" then hasProgressBarInner rest
    else
      let iss := sty inner
      if dMem iss "border-radius" ∧ dMem iss "height" then do
        match ← bgColor iss with
        | some _ => pure true
        | none => hasProgressBarInner rest
      else hasProgressBarInner rest

/-- Embedding of `_has_progress_bar`: a grand-child div with border-radius,
height and a background colour. -/
def hasProgressBarGo : List El → Except PyErr Bool
  | [] => .ok false
  | child :: rest => do
    match ← hasProgressBarInner child.children.toList with
    | true => pure true
    | false => hasProgressBarGo rest

def hasProgressBar (boxEl : El) : Except PyErr Bool :=
  hasProgressBarGo boxEl.children.toList

/-- Embedding of `_is_legend_div`. -/
def isLegendDiv (div : El) : Bool :=
  let st := sty div
  if ¬ dMem st "bottom" then false
  else if selClass "section-header" div ≠ [] then false
  else
    (selSpanStyle div).any (fun span =>
      let ssd := sty span
      let bg := pyOrS (dGetD ssd "background" "") (dGetD ssd "background-color" "")
      (bg ≠ "" ∧ dReprContains ssd "border-radius") ∨
      (dGetD ssd "color" "" ≠ "" ∧ strContains span.text dotStr))

/-! ## Assorted helpers used by the renderer -/

/-- Python `a or b` on element lists (`cssselect` results). -/
def pyOrL (a b : List El) : List El := if a.isEmpty then b else a

/-- Python `str.startswith`. -/
def strStartsWith (s pre : String) : Bool := pre.data.isPrefixOf s.data

/-- Replace every occurrence of `pat` (non-empty for all uses) by `rep`. -/
def strReplaceGo : ℕ → List Char → List Char → List Char → List Char
  | 0, cs, _, _ => cs
  | n + 1, cs, pat, rep =>
    match splitAtInfix pat cs with
    | none => cs
    | some (pre, post) => pre ++ rep ++ strReplaceGo n post pat rep

def strReplace (s pat rep : String) : String :=
  ⟨strReplaceGo (s.data.length + 1) s.data pat.data rep.data⟩

/-- Decimal rendering of a natural number (Python f-string `{n}`). -/
def natToStrGo : ℕ → ℕ → List Char → List Char
  | 0, _, acc => acc
  | _ + 1, n, acc =>
    let d := Char.ofNat (n % 10 + '0'.toNat)
    if n < 10 then d :: acc else natToStrGo (n / 10) (n / 10) (d :: acc)

def natToStr (n : ℕ) : String := ⟨natToStrGo (n + 1) n []⟩

/-- Value of a hexadecimal digit in either case, if any. -/
def hexDigVal? (c : Char) : Option ℕ :=
  if c.isDigit then some (c.toNat - '0'.toNat)
  else if 'a' ≤ c ∧ c ≤ 'f' then some (c.toNat - 'a'.toNat + 10)
  else if 'A' ≤ c ∧ c ≤ 'F' then some (c.toNat - 'A'.toNat + 10)
  else none

/-- Python `int(s, 16)` restricted to plain hex digit strings (the source's
input is at most four characters drawn from a CSS `content` escape). -/
def hexNat? (cs : List Char) : Option ℕ :=
  if cs.isEmpty then none
  else cs.foldlM (fun acc c => (hexDigVal? c).map (fun v => 16 * acc + v)) 0

/-- Update the `i`-th element of a list in place. -/
def listModify {α : Type} (l : List α) (i : ℕ) (f : α → α) : List α :=
  match l, i with
  | [], _ => []
  | x :: xs, 0 => f x :: xs
  | x :: xs, n + 1 => x :: listModify xs n f

/-- Sum of a float list (Python `sum`). -/
def qSum (ws : List Q) : Q := ws.foldl (· + ·) 0

/-- Python `font_weight not in ('400', 'normal', '')`. -/
def boldOf (fw : String) : Bool := ¬ (fw = "400" ∨ fw = "normal" ∨ fw = "")

/-- `{'center': CENTER, 'right': RIGHT}.get(align, LEFT)`. -/
def alignOf (s : String) : Align :=
  if s = "center" then .center else if s = "right" then .right else .left

/-- Python `a or b` where both operands are colour-parse results evaluated
lazily left to right (`_parse_color(x) or _parse_color(y)` only evaluates the
second call when the first is falsy). -/
def orElseColor (a : Except PyErr (Option RGB)) (b : Unit → Except PyErr (Option RGB)) :
    Except PyErr (Option RGB) := do
  match ← a with
  | some c => pure (some c)
  | none => b ()

/-! ## Chrome renderers (`SlideRenderer._chrome`) -/

def chromeTopBar (ss : SS) (el : El) : RM Unit := do
  match selClass "top-bar" el with
  | [] => pure ()
  | tb0 :: _ => do
    let tbSty := sty tb0
    let h1 ← liftE (px (dGetD tbSty "height" ""))
    let tbH ← if h1.beq 0 then liftE (px (dGetD (ssGet ss [".top-bar"]) "height" "8"))
              else pure h1
    let tbBg ← liftE (orElseColor (bgColor tbSty) (fun _ => bgColor (ssGet ss [".top-bar"])))
    let tbBg := tbBg.getD FALLBACK_GREY_CC
    rectS 0 0 SLIDE_W_PX tbH (some tbBg) none none

def chromeDateBox (ss : SS) (font : String) (el : El) : RM Unit := do
  match selClass "date-box" el with
  | [] => pure ()
  | db0 :: _ => do
    let dbCss := ssGet ss [".date-box"]
    let dbSty := sty db0
    let dbW ← liftE (px (pyOrS (dGetD dbSty "width" "") (dGetD dbCss "width" "100")))
    let dbH ← liftE (px (pyOrS (dGetD dbSty "height" "") (dGetD dbCss "height" "50")))
    let dbTop ← liftE (px (pyOrS (dGetD dbSty "top" "") (dGetD dbCss "top" "8")))
    let dbRight ← liftE (px (pyOrS (dGetD dbSty "right" "") (dGetD dbCss "right" "0")))
    let dbLeft := SLIDE_W_PX - dbW - dbRight
    let dbBg ← liftE (orElseColor (bgColor dbSty) (fun _ => bgColor dbCss))
    let dbBg := dbBg.getD FALLBACK_GREY_CC
    let dbColor ← liftE (parseColor (pyOrS (dGetD dbSty "color" "") (dGetD dbCss "color" "")))
    let dbColor := dbColor.getD FALLBACK_WHITE
    let dbFsPx ← liftE (px (pyOrS (dGetD dbSty "font-size" "") (dGetD dbCss "font-size" "14")))
    let dbFw := pyOrS (dGetD dbSty "font-weight" "") (dGetD dbCss "font-weight" "600")
    rectS dbLeft dbTop dbW dbH (some dbBg) none none
    textboxS dbLeft dbTop dbW dbH (pyStrip (textContent db0)) (dbFsPx * 0.75) (boldOf dbFw)
      dbColor .center font true true

def chromeTitle (ss : SS) (font : String) (el : El) : RM Unit := do
  match selClass "main-title" el with
  | [] => pure ()
  | t0 :: _ => do
    let st := sty t0
    let tCss := ssGet ss [".main-title"]
    let fs ← liftE (px (pyOrS (dGetD st "font-size" "") (dGetD tCss "font-size" "42")))
    let tLeft ← liftE (px (pyOrS (dGetD st "left" "") (dGetD tCss "left" "30")))
    let tTop ← liftE (px (pyOrS (dGetD st "top" "") (dGetD tCss "top" "20")))
    let tColor ← liftE (parseColor (pyOrS (dGetD st "color" "") (dGetD tCss "color" "")))
    let tColor := tColor.getD FALLBACK_TEAL
    let mw ← if dMem st "max-width" then liftE (px (dGetD st "max-width" "800"))
             else pure (800 : Q)
    let tFw := pyOrS (dGetD st "font-weight" "") (dGetD tCss "font-weight" "700")
    textboxS tLeft tTop mw (fs * 1.4) (pyStrip (textContent t0)) (fs * 0.75) (boldOf tFw)
      tColor .left font true false

def chromeFooter (ss : SS) (font : String) (el : El) : RM Unit := do
  let fbs := pyOrL (selClass "footer-bar" el) (pyOrL (selClass "bottom-bar" el) (selClass "footer" el))
  match fbs with
  | [] => pure ()
  | fb :: _ => do
    let fbSty := sty fb
    let fbCls := if selClass "footer-bar" el ≠ [] then "footer-bar"
                 else if selClass "bottom-bar" el ≠ [] then "bottom-bar" else "footer"
    let fbCss := ssGet ss ["." ++ fbCls, ".footer-bar", ".bottom-bar", ".footer"]
    let fbH ← liftE (px (pyOrS (dGetD fbSty "height" "") (dGetD fbCss "height" "32")))
    let fbBg ← liftE (orElseColor (bgColor fbSty) (fun _ => bgColor fbCss))
    let fbBg := fbBg.getD FALLBACK_GREY_CC
    let fbTop := SLIDE_H_PX - fbH
    rectS 0 fbTop SLIDE_W_PX fbH (some fbBg) none none
    (match pyOrL (selClass "page-number" fb) (selClass "page-number" el) with
     | [] => pure ()
     | pn0 :: _ => do
        let pnCss := ssGet ss [".page-number"]
        let pnSty := sty pn0
        let pnColor ← liftE (parseColor (pyOrS (dGetD pnSty "color" "") (dGetD pnCss "color" "")))
        let pnColor := pnColor.getD FALLBACK_WHITE
        let pnFsPx ← liftE (px (pyOrS (dGetD pnSty "font-size" "") (dGetD pnCss "font-size" "14")))
        textboxS 20 fbTop 100 fbH (pyStrip (textContent pn0)) (pnFsPx * 0.75) false pnColor
          .left font true true)
    match pyOrL (selClass "logo" fb) (selClass "logo" el) with
    | [] => pure ()
    | lg0 :: _ => do
        let lgCss := ssGet ss [".logo"]
        let lgSty := sty lg0
        let lgColor ← liftE (parseColor (pyOrS (dGetD lgSty "color" "") (dGetD lgCss "color" "")))
        let lgColor := lgColor.getD FALLBACK_WHITE
        let lgFsPx ← liftE (px (pyOrS (dGetD lgSty "font-size" "") (dGetD lgCss "font-size" "18")))
        let lgFw := pyOrS (dGetD lgSty "font-weight" "") (dGetD lgCss "font-weight" "700")
        textboxS (SLIDE_W_PX - 140) fbTop 120 fbH (pyStrip (textContent lg0)) (lgFsPx * 0.75)
          (boldOf lgFw) lgColor .right font true true

def chrome (ss : SS) (font : String) (el : El) : RM Unit := do
  chromeTopBar ss el
  chromeDateBox ss font el
  chromeTitle ss font el
  chromeFooter ss font el

/-! ## Table renderer (`SlideRenderer._render_table`) -/

/-- First-rule column width for a class list (`for cn in cls.split(): ...
break on positive`); the final iteration's value is kept even when it is not
positive, as in the source loop. -/
def classWidthGo (ss : SS) (width : Q) : List String → Except PyErr Q
  | [] => .ok 0
  | [cn] => resolveWidth (ssGet ss ["." ++ cn]) "width" 0 width
  | cn :: rest => do
    let cw ← resolveWidth (ssGet ss ["." ++ cn]) "width" 0 width
    if (0 : Q).blt cw then pure cw else classWidthGo ss width rest

/-- Explicit width of one first-row cell: inline style first (px, with the
`%` branch of `_resolve_width` behind it), then stylesheet class widths. -/
def explicitCellWidth (ss : SS) (width : Q) (c : El) : Except PyErr Q := do
  let cw ← resolveWidth (sty c) "width" 0 width
  if cw.beq 0 then
    let cls := attrD c "class" ""
    if cls ≠ "" then classWidthGo ss width (pySplitWs cls)
    else pure cw
  else pure cw

/-- The `explicit_w` list of `_render_table`. -/
def explicitWidths (ss : SS) (width : Q) (cells : List El) : Except PyErr (List Q) :=
  cells.mapM (explicitCellWidth ss width)

/-- `n_auto`: the number of first-row cells with no explicit width. -/
def countAuto (ws : List Q) : ℕ := (ws.filter (fun w => w.beq 0)).length

/-- `auto_w = remaining / max(n_auto, 1) if n_auto else 0`. -/
def autoWidth (width : Q) (ws : List Q) : Q :=
  if countAuto ws ≠ 0 then (width - qSum ws).divN (max (countAuto ws) 1) else 0

/-- `col_widths = [w if w > 0 else auto_w for w in explicit_w]`. -/
def colWidthsOf (width : Q) (ws : List Q) : List Q :=
  ws.map (fun w => if (0 : Q).blt w then w else autoWidth width ws)

/-- `_has_dashed`: any `border*` property whose value mentions `dashed`. -/
def hasDashed (css : Dict) : Bool :=
  css.any (fun p => strStartsWith p.1 "border" ∧ strContains p.2 "dashed")

/-- `_any_border_color`: first parseable colour among the border shorthands. -/
def anyBorderColor (css : Dict) : Except PyErr (Option RGB) :=
  orElseColor (parseBorderColor (dGetD css "border" ""))
    (fun _ => orElseColor (parseBorderColor (dGetD css "border-top" ""))
      (fun _ => orElseColor (parseBorderColor (dGetD css "border-bottom" ""))
        (fun _ => orElseColor (parseBorderColor (dGetD css "border-left" ""))
          (fun _ => parseBorderColor (dGetD css "border-right" "")))))

/-- Shared per-table context for cell rendering. -/
structure TblCtx where
  ss : SS
  font : String
  thCss : Dict
  tdCss : Dict
  tblFsPx : Q
  cellBorder : RGB
  dashed : Bool

/-- `cell_fs = _px(...) or _px(...) or _px(...) or tbl_fs_px` with lazy
left-to-right evaluation. -/
def cellFontSize (ctx : TblCtx) (ds clsCss : Dict) (isTh : Bool) : Except PyErr Q := do
  let v1 ← px (dGetD ds "font-size" "")
  if ¬ v1.beq 0 then pure v1
  else do
    let v2 ← px (dGetD clsCss "font-size" "")
    if ¬ v2.beq 0 then pure v2
    else do
      let v3 ← px (dGetD (if isTh then ctx.thCss else ctx.tdCss) "font-size" "")
      if ¬ v3.beq 0 then pure v3 else pure ctx.tblFsPx

/-- Header fill and final run colour (`_render_table` lines applying the
cell background): a `th` takes `cell_bg or tr_bg` as fill, forcing a white
run on a non-light fill; body cells prefer the row background. -/
def thCellFillColor (tag : String) (cellBg trBg : Option RGB) (pre : RGB) :
    Option RGB × RGB :=
  if tag = "th" then
    match pyOrO cellBg trBg with
    | some bg => (some bg, if isLight bg then pre else FALLBACK_WHITE)
    | none => (none, pre)
  else
    match trBg with
    | some c => (some c, pre)
    | none =>
      match cellBg with
      | some c => (some c, pre)
      | none => (none, pre)

/-- Mutate one cell of the just-created table shape. -/
def setCell (ri ci : ℕ) (f : TCell → TCell) : RM Unit :=
  modifyLast (fun sh =>
    match sh with
    | .table l t w h nr nc cw cells =>
      .table l t w h nr nc cw (listModify cells ri (fun row => listModify row ci f))
    | other => other)

def mapRun0 (f : Run → Run) (c : TCell) : TCell :=
  { c with runs := listModify c.runs 0 f }

/-- Render one table cell (one iteration of the inner loop of
`_render_table`), mutating cell `(ri, ci)` of the last shape. -/
def renderCell (ctx : TblCtx) (trBg trColor : Option RGB) (ri ci : ℕ) (td : El) :
    RM Unit := do
  let ds := sty td
  let cls := attrD td "class" ""
  let clsCss := (pySplitWs cls).foldl (fun acc c => dUpdate acc (ssGet ctx.ss ["." ++ c])) []
  let txt := pyStrip (textContent td)
  let cc ← liftE (circleColor td)
  let txt := if cc.isSome then dotStr else txt
  let cellFs ← liftE (cellFontSize ctx ds clsCss (td.tag = "th"))
  let fsPt := cellFs * 0.75
  let fsPt := if fsPt.blt 6 then (8 : Q) else fsPt
  let align := pyOrS (dGetD ds "text-align" "")
    (pyOrS (dGetD clsCss "text-align" "")
      (pyOrS (dGetD (if td.tag = "th" then ctx.thCss else ctx.tdCss) "text-align" "") "left"))
  let fw := pyOrS (dGetD ds "font-weight" "")
    (pyOrS (dGetD clsCss "font-weight" "")
      (dGetD (if td.tag = "th" then ctx.thCss else ctx.tdCss) "font-weight" ""))
  setCell ri ci (fun c => { c with runs := [], align := alignOf align })
  let runColor0 ← match cc with
    | some ccol => do
        setCell ri ci (fun c =>
          { c with runs := [⟨dotStr, 10, false, false, false, some ccol, ctx.font⟩] })
        pure ccol
    | none => do
        setCell ri ci (fun c =>
          { c with runs := [⟨txt, fsPt, false, false, false, none, ctx.font⟩] })
        let c2 ← liftE (orElseColor (parseColor (dGetD ds "color" ""))
          (fun _ => parseColor (dGetD clsCss "color" "")))
        let cellColor := (pyOrO c2 (pyOrO trColor (some FALLBACK_BLACK33))).getD FALLBACK_BLACK33
        setCell ri ci (mapRun0 (fun r => { r with color := some cellColor }))
        pure cellColor
  (if fw ≠ "" then
    setCell ri ci (mapRun0 (fun r => { r with bold := ¬ (fw = "400" ∨ fw = "normal") }))
  else if td.tag = "th" then
    setCell ri ci (mapRun0 (fun r => { r with bold := true }))
  else pure ())
  let cellBg ← liftE (orElseColor (bgColor ds) (fun _ => bgColor clsCss))
  let fillAndColor := thCellFillColor td.tag cellBg trBg runColor0
  (match fillAndColor.1 with
   | some f => setCell ri ci (fun c => { c with fill := some f })
   | none => pure ())
  setCell ri ci (mapRun0 (fun r => { r with color := some fillAndColor.2 }))
  setCell ri ci (fun c =>
    { c with borderColor := some ctx.cellBorder, borderWidth := 6350,
             borderDash := ctx.dashed })
  setCell ri ci (fun c =>
    { c with marginL := E 4, marginR := E 4, marginT := E 2, marginB := E 2 })

def renderRowCells (ctx : TblCtx) (nCols : ℕ) (trBg trColor : Option RGB) (ri : ℕ) :
    ℕ → List El → RM Unit
  | _, [] => pure ()
  | ci, td :: rest =>
    if nCols ≤ ci then pure ()
    else do
      renderCell ctx trBg trColor ri ci td
      renderRowCells ctx nCols trBg trColor ri (ci + 1) rest

def renderRows (ctx : TblCtx) (nCols : ℕ) : ℕ → List El → RM Unit
  | _, [] => pure ()
  | ri, tr :: rest => do
    let trSty := sty tr
    let trBg ← liftE (parseColor (dGetD trSty "background" ""))
    let trColor ← liftE (parseColor (dGetD trSty "color" ""))
    renderRowCells ctx nCols trBg trColor ri 0 (selCells tr)
    renderRows ctx nCols (ri + 1) rest

/-- Set `tbl.columns[ci].width = E(cw)` for every resolved column below
`n_cols`. -/
def setColWidthsGo (nCols : ℕ) : ℕ → List Q → RM Unit
  | _, [] => pure ()
  | ci, cw :: rest => do
    (if ci < nCols then
      modifyLast (fun sh =>
        match sh with
        | .table l t w h nr nc cws cells =>
          .table l t w h nr nc (listModify cws ci (fun _ => E cw)) cells
        | other => other)
    else pure ())
    setColWidthsGo nCols (ci + 1) rest

/-- Embedding of `_render_table`.  The built-in table theme removal
(`_nuke_table_theme`) has no observable counterpart in the model, which
carries no theme. -/
def renderTable (ss : SS) (font : String) (tableEl : El) (left top width : Q)
    (dashed : Bool) : RM Unit := do
  match selTag "tr" tableEl with
  | [] => pure ()
  | tr0 :: trRest => do
    let trs := tr0 :: trRest
    let nCols := (trs.map (fun tr => (selCells tr).length)).foldl max 0
    let nRows := trs.length
    if nCols = 0 then pure ()
    else do
      let width := if width.ble 0 then SLIDE_W_PX - left - 20 else width
      let tblSty := sty tableEl
      let tblFsPx ← liftE (px (dGetD tblSty "font-size" "11"))
      let tblBorder ← liftE (parseBorderColor (dGetD tblSty "border" ""))
      let tblBorder := tblBorder.getD FALLBACK_GREY_CC
      let tblW ← liftE (resolveWidth tblSty "width" 0 width)
      let width := if (0 : Q).blt tblW then tblW else width
      let ws ← liftE (explicitWidths ss width (selCells tr0))
      let colWs := colWidthsOf width ws
      let tblClass := attrD tableEl "class" ""
      let tblSel := if pyStrip tblClass ≠ "" then "." ++ (pySplitWs tblClass).headD "" else ""
      let thCss := if tblSel ≠ "" then ssGet ss [tblSel ++ " th"] else []
      let tdCss := if tblSel ≠ "" then ssGet ss [tblSel ++ " td"] else []
      let dashed := if ¬ dashed ∧ tdCss ≠ [] then hasDashed tdCss else dashed
      let dashed := if ¬ dashed ∧ thCss ≠ [] then hasDashed thCss else dashed
      let cellBorder ← liftE (orElseColor (anyBorderColor tdCss)
        (fun _ => anyBorderColor thCss))
      let cellBorder := cellBorder.getD tblBorder
      let rowH : Q := 22
      emit (.table (E left) (E top) (E width) (E ((nRows : Q) * rowH + 4)) nRows nCols
        (List.replicate nCols (Int.fdiv (E width) (nCols : ℤ)))
        (List.replicate nRows (List.replicate nCols TCell.init)))
      setColWidthsGo nCols 0 colWs
      renderRows ⟨ss, font, thCss, tdCss, tblFsPx, cellBorder, dashed⟩ nCols 0 trs

/-! ## Recursive box content renderer (`_render_box_content`) -/

/-- The bullet configuration computed at each `_render_box_content` entry. -/
structure BulletCfg where
  color : RGB
  char : String
  fs : Q
deriving DecidableEq

/-- Bullet colour, glyph and size from `.bullet-item::before` (CSS `content`
escapes `\25aa`/`\2022` are decoded; other short escapes go through
`chr(int(_, 16))`, whose rare lone-surrogate outputs are clamped by
`Char.ofNat`). -/
def bulletCfg (ss : SS) : Except PyErr BulletCfg := do
  let biBefore := ssGet ss [".bullet-item::before"]
  let bColor := (← parseColor (dGetD biBefore "color" "")).getD FALLBACK_RED_BULL
  let raw := pyStripChars ['"', '\''] (dGetD biBefore "content" "")
  let bChar := pyOrS (strReplace (strReplace raw "\\25aa" "▪") "\\2022" "•") "▪"
  let bChar := if strStartsWith bChar "\\" ∧ bChar.length ≤ 5 then
      match hexNat? (bChar.data.drop 1) with
      | some n => (⟨[Char.ofNat n]⟩ : String)
      | none => bChar
    else bChar
  let bFs ← px (dGetD biBefore "font-size" "10")
  pure ⟨bColor, bChar, bFs * 0.75⟩

def INLINE_TAGS : List String := ["strong", "b", "em", "i", "span", "a", "br", "sub", "sup"]

def blockTags : List String := ["p", "ul", "div", "table"]

/- The loop of `_render_box_content` over a container's children, the `li`
loop of its `ul`/`ol` branch, and the nested-list loop inside an `li`.  The
`div` and nested-list branches re-enter `_render_box_content`, which
recomputes the bullet configuration; that re-entry is inlined here so the
recursion stays structural. -/
mutual

def renderChildrenGo (ss : SS) (font : String) (left w indent fsPt : Q)
    (cfg : BulletCfg) : Els → Q → RM Q
  | .nil, y => pure y
  | .cons (El.mk tg ats tx cs tl) rest, y => do
    let child := El.mk tg ats tx cs tl
    if INLINE_TAGS.contains tg then renderChildrenGo ss font left w indent fsPt cfg rest y
    else do
      let xBase := left + 8 + indent
      let wInner := w - 16 - indent
      let cls := attrD child "class" ""
      let cst := sty child
      let mt ← liftE (px (dGetD cst "margin-top" "0"))
      let mb ← liftE (px (dGetD cst "margin-bottom" "0"))
      let y := y + mt
      let lhStr := dGetD cst "line-height" ""
      let lh : Q ← if lhStr ≠ "" then do
          let lhVal ← liftE (px lhStr)
          if (0 : Q).blt lhVal ∧ lhVal.blt 5 then pure ((pyInt ((13 : Q) * lhVal) : ℤ) : Q)
          else if (5 : Q).ble lhVal then pure ((pyInt lhVal : ℤ) : Q)
          else pure 13
        else pure (13 : Q)
      let y ←
        if strContains cls "budget-label" ∨ strContains cls "sub-label" then do
          let blCss := ssGet ss [".budget-label", ".sub-label"]
          let blFs ← liftE (px (pyOrS (dGetD cst "font-size" "") (dGetD blCss "font-size" "12")))
          let blFw := pyOrS (dGetD cst "font-weight" "") (dGetD blCss "font-weight" "700")
          let blColor := (← liftE (parseColor
            (pyOrS (dGetD cst "color" "") (dGetD blCss "color" "")))).getD FALLBACK_BLACK33
          textboxS xBase y wInner 14 (pyStrip (textContent child)) (blFs * 0.75) (boldOf blFw)
            blColor .left font true false
          pure (y + 14 + mb)
        else if strContains cls "bullet-item" then do
          let biCss := ssGet ss [".bullet-item"]
          let fsCss ← liftE (px (pyOrS (dGetD cst "font-size" "") (dGetD biCss "font-size" "11")))
          let fpt := fsCss * 0.75
          let itemMb ← liftE (px (pyOrS (dGetD cst "margin-bottom" "")
            (dGetD biCss "margin-bottom" "4")))
          textboxS xBase y 10 12 cfg.char cfg.fs false cfg.color .left font true false
          textboxS (xBase + 12) y (wInner - 12) 14 "" 8 false FALLBACK_BLACK33 .left font true false
          renderRich child fpt false
          pure (y + ((max 14 (pyInt (fpt * 1.8)) : ℤ) : Q) + itemMb)
        else if tg = "ul" ∨ tg = "ol" then do
          let ulMargin ← liftE (px (dGetD cst "margin-left" "0"))
          let y' ← renderLis ss font left w indent fsPt tg lh (xBase + ulMargin)
            (wInner - ulMargin) 0 cs y
          pure (y' + mb)
        else if tg = "p" then do
          let txt := pyStrip (textContent child)
          let y ← if txt ≠ "" then do
              textboxS xBase y wInner 14 "" 8 false FALLBACK_BLACK33 .left font true false
              renderRich child fsPt false
              pure (y + 14)
            else pure y
          pure (y + mb)
        else if tg = "div" then do
          if cs.toList.any (fun c => blockTags.contains c.tag) then do
            let fsStr := dGetD cst "font-size" ""
            let childFs ← if fsStr ≠ "" then do pure ((← liftE (px fsStr)) * 0.75)
                          else pure fsPt
            let ml ← liftE (px (dGetD cst "margin-left" "0"))
            let cfg' ← liftE (bulletCfg ss)
            let y ← renderChildrenGo ss font left w (indent + ml) childFs cfg' cs y
            pure (y + mb)
          else do
            let txt := pyStrip (textContent child)
            let y ← if txt ≠ "" then do
                textboxS xBase y wInner 14 "" 8 false FALLBACK_BLACK33 .left font true false
                renderRich child fsPt false
                pure (y + 14)
              else pure y
            pure (y + mb)
        else pure y
      renderChildrenGo ss font left w indent fsPt cfg rest y

def renderLis (ss : SS) (font : String) (left w indent fsPt : Q) (tg : String)
    (lh liX liW : Q) : ℕ → Els → Q → RM Q
  | _, .nil, y => pure y
  | liNum, .cons (El.mk ltg lats ltx lcs ltl) rest, y => do
    let li := El.mk ltg lats ltx lcs ltl
    if ltg ≠ "li" then renderLis ss font left w indent fsPt tg lh liX liW liNum rest y
    else do
      let liNum := liNum + 1
      let txt := pyStrip (textContent li)
      if txt = "" then renderLis ss font left w indent fsPt tg lh liX liW liNum rest y
      else do
        let liColor := (← liftE (parseColor (dGetD (sty li) "color" ""))).getD FALLBACK_BLACK33
        (if tg = "ol" then do
          textboxS liX y 18 lh (natToStr liNum ++ ".") 8 false liColor .left font true false
          textboxS (liX + 18) y (liW - 18) lh "" 8 false FALLBACK_BLACK33 .left font true false
        else do
          textboxS liX y 10 lh "•" 8 false liColor .left font true false
          textboxS (liX + 12) y (liW - 12) lh "" 8 false FALLBACK_BLACK33 .left font true false)
        renderRich li fsPt false
        let y := y + lh
        let y ← renderNested ss font left w indent fsPt lcs y
        renderLis ss font left w indent fsPt tg lh liX liW liNum rest y

def renderNested (ss : SS) (font : String) (left w indent fsPt : Q) :
    Els → Q → RM Q
  | .nil, y => pure y
  | .cons (El.mk ntg _nats _ntx ncs _ntl) rest, y => do
    let y ← if ntg = "ul" ∨ ntg = "ol" then do
        let cfg ← liftE (bulletCfg ss)
        renderChildrenGo ss font left w (indent + 16) fsPt cfg ncs y
      else pure y
    renderNested ss font left w indent fsPt rest y

end

/-- Embedding of `_render_box_content` on a container element's children. -/
def renderBoxContent (ss : SS) (font : String) (left w indent fsPt : Q)
    (cs : Els) (y : Q) : RM Q := do
  let cfg ← liftE (bulletCfg ss)
  renderChildrenGo ss font left w indent fsPt cfg cs y

/-! ## Section rendering -/

/-- Embedding of `_section_chrome`: separator line, section title, and — when
a box resolves (externally passed sibling or nested `.section-box` child) —
the box outline rectangle. -/
def sectionChrome (ss : SS) (font : String) (div : El) (st : Dict)
    (extBox : Option El) : RM Unit := do
  let top ← liftE (px (dGetD st "top" "0"))
  let left ← liftE (px (dGetD st "left" "0"))
  let w ← liftE (resolveWidth st "width" 420 SLIDE_W_PX)
  let hdrSty := match selClass "section-header" div with
    | h :: _ => sty h
    | [] => []
  let hdrCss := ssGet ss [".section-header"]
  let sepColor := (← liftE (parseBorderColor
    (pyOrS (dGetD hdrSty "border-top" "") (dGetD hdrCss "border-top" "")))).getD FALLBACK_GREY_CC
  rectS left top w 1 (some sepColor) none none
  (match selClass "section-title" div with
   | [] => pure ()
   | t0 :: _ => do
      let tSty := sty t0
      let tCss := ssGet ss [".section-title"]
      let tColor := (← liftE (parseColor
        (pyOrS (dGetD tSty "color" "") (dGetD tCss "color" "")))).getD FALLBACK_TEAL
      let tFs ← liftE (px (pyOrS (dGetD tSty "font-size" "") (dGetD tCss "font-size" "13")))
      let tFw := pyOrS (dGetD tSty "font-weight" "") (dGetD tCss "font-weight" "700")
      textboxS left (top + 2) w 16 (pyStrip (textContent t0)) (tFs * 0.75) (boldOf tFw)
        tColor .left font true false)
  let boxEl := match extBox with
    | some b => some b
    | none => (selClass "section-box" div).head?
  match boxEl with
  | none => pure ()
  | some box => do
    let boxSty := sty box
    let boxCss := ssGet ss [".section-box"]
    let bh ← liftE (px (pyOrS (dGetD boxSty "height" "") (dGetD boxCss "height" "80")))
    let boxBg ← liftE (orElseColor (bgColor boxSty) (fun _ => bgColor boxCss))
    let boxBg := boxBg.getD FALLBACK_WHITE
    let boxBorder := (← liftE (parseBorderColor
      (pyOrS (dGetD boxSty "border" "") (dGetD boxCss "border" "")))).getD FALLBACK_GREY_CC
    let boxTopPx ← liftE (px (dGetD boxSty "top" ""))
    let boxLeftPx ← liftE (px (dGetD boxSty "left" ""))
    if (0 : Q).blt boxTopPx then
      rectS (pyOrQ boxLeftPx left) boxTopPx w bh (some boxBg) (some boxBorder) (some (ptEmu 0.75))
    else
      rectS left (top + 20) w bh (some boxBg) (some boxBorder) (some (ptEmu 0.75))

/-- The `is_dashed` computation shared by the dispatcher's table branch and
`_section_full_with_box`: any `border*` entry of the table's inline style
merged under the `<table-class> td` rule mentioning `dashed`. -/
def sectionTableDashed (ss : SS) (tblEl : El) : Bool :=
  let tblCls := attrD tblEl "class" ""
  let sel := if pyStrip tblCls ≠ "" then "." ++ (pySplitWs tblCls).headD "" else ""
  let tdCss := if sel ≠ "" then ssGet ss [sel ++ " td"] else []
  (dUpdate (sty tblEl) tdCss).any
    (fun p => strStartsWith p.1 "border" ∧ strContains p.2 "dashed")

def renderTrendItems (font : String) (fsDefault : Q) (bold : Bool)
    (colorDefault : RGB) (gap y : Q) : Q → List El → RM Unit
  | _, [] => pure ()
  | x, item :: rest => do
    let itemSty := sty item
    let itemColor := (← liftE (parseColor (dGetD itemSty "color" ""))).getD colorDefault
    let itemFs ← if dGetD itemSty "font-size" "" ≠ "" then do
        pure ((← liftE (px (dGetD itemSty "font-size" ""))) * 0.75)
      else pure fsDefault
    textboxS x y 80 20 (pyStrip (textContent item)) itemFs bold itemColor .left font true false
    renderTrendItems font fsDefault bold colorDefault gap y (x + 80 + gap) rest

/-- Embedding of `_section_full_with_box`. -/
def sectionFullWithBox (ss : SS) (font : String) (div : El) (st : Dict)
    (extBox : Option El) : RM Unit := do
  sectionChrome ss font div st extBox
  let top ← liftE (px (dGetD st "top" "0"))
  let left ← liftE (px (dGetD st "left" "0"))
  let w ← liftE (resolveWidth st "width" 420 SLIDE_W_PX)
  let box? := match extBox with
    | some b => some b
    | none => (selClass "section-box" div).head?
  match box? with
  | none => pure ()
  | some box => do
    let boxSty := sty box
    let boxTopPx ← liftE (px (dGetD boxSty "top" ""))
    let boxTop := if (0 : Q).blt boxTopPx then boxTopPx else top + 20
    match selTag "table" box with
    | tbl0 :: _ => do
        renderTable ss font tbl0 (left + 2) (boxTop + 2) (w - 4) (sectionTableDashed ss tbl0)
    | [] => do
      let boxCls := attrD box "class" ""
      let trendEl := if strContains boxCls "trend-box" then some box
        else (selClass "trend-box" box).head?
      match trendEl with
      | some trend => do
          let tiCss := ssGet ss [".trend-item"]
          let tiFs ← liftE (px (dGetD tiCss "font-size" "14"))
          let tiFw := dGetD tiCss "font-weight" "600"
          let tiColor := (← liftE (parseColor (dGetD tiCss "color" ""))).getD FALLBACK_BLACK33
          let tiGap ← liftE (px (dGetD (ssGet ss [".trend-box"]) "gap" "30"))
          let trendSty := sty trend
          let trendTop ← liftE (px (dGetD trendSty "top" ""))
          let trendLeft ← liftE (px (dGetD trendSty "left" ""))
          let renderY := if (0 : Q).blt trendTop then trendTop else boxTop + 10
          let renderX := (pyOrQ trendLeft left) + 8
          renderTrendItems font (tiFs * 0.75) (boldOf tiFw) tiColor tiGap renderY renderX
            (selClass "trend-item" trend)
      | none => do
          let _ ← renderBoxContent ss font left w 0 8 box.children (boxTop + 6)
          pure ()

/-! ## Planning / progress-bar rendering (`_planning_with_box`) -/

/-- `fill_children = [fd for fd in inner if fd.tag == 'div' and _bg_color(_sty(fd))]`. -/
def filterFillChildren : List El → Except PyErr (List El)
  | [] => .ok []
  | fd :: rest =>
    if fd.tag ≠ "div" then filterFillChildren rest
    else do
      match ← bgColor (sty fd) with
      | some _ => pure (fd :: (← filterFillChildren rest))
      | none => filterFillChildren rest

def fillBars (left y barW barH : Q) : List El → RM Unit
  | [] => pure ()
  | fd :: rest => do
    let fds := sty fd
    (match ← liftE (bgColor fds) with
     | none => pure ()
     | some fillColor => do
        let p ← liftE (pct (dGetD fds "width" "0"))
        let fw := (barW * p).divN 100
        if (0 : Q).blt fw then
          emit (.roundRect (E (left + 12)) (E y) (E fw) (E barH) fillColor)
        else pure ())
    fillBars left y barW barH rest

def spanLabels (font : String) (left y barW barH : Q) : List El → RM Unit
  | [] => pure ()
  | sp :: rest => do
    (if sp.tag ≠ "span" then pure ()
     else do
      let stxt := pyStrip (textContent sp)
      if strContains stxt "%" then do
        let spSty := sty sp
        let spFs ← if dGetD spSty "font-size" "" ≠ "" then do
            pure ((← liftE (px (dGetD spSty "font-size" "11"))) * 0.75)
          else pure (8 : Q)
        let spColor := (← liftE (parseColor (dGetD spSty "color" ""))).getD FALLBACK_BLACK33
        textboxS (left + barW - 60) y 72 barH stxt spFs false spColor .right font true false
      else pure ())
    spanLabels font left y barW barH rest

/-- The progress-bar scan over one child's inner divs; returns the advanced
cursor and whether a bar was drawn. -/
def planningBars (font : String) (left w : Q) : List El → Q → Bool → RM (Q × Bool)
  | [], y, drew => pure (y, drew)
  | inner :: rest, y, drew =>
    if inner.tag ≠ "div" then planningBars font left w rest y drew
    else
      let iss := sty inner
      if ¬ dMem iss "border-radius" ∨ ¬ dMem iss "height" then
        planningBars font left w rest y drew
      else do
        match ← liftE (bgColor iss) with
        | none => planningBars font left w rest y drew
        | some innerBg => do
          let fillChildren ← liftE (filterFillChildren inner.children.toList)
          let hasSpan := inner.children.toList.any (fun sp => sp.tag = "span")
          if fillChildren.isEmpty ∧ ¬ hasSpan then planningBars font left w rest y drew
          else do
            let barH ← liftE (px (dGetD iss "height" "16"))
            let barW := w - 24
            emit (.roundRect (E (left + 12)) (E y) (E barW) (E barH) innerBg)
            fillBars left y barW barH fillChildren
            spanLabels font left y barW barH inner.children.toList
            planningBars font left w rest (y + barH + 8) true

def planningChildren (ss : SS) (font : String) (left w : Q) : List El → Q → RM Unit
  | [], _ => pure ()
  | child :: rest, y => do
    let yDrew ← planningBars font left w child.children.toList y false
    let y := yDrew.1
    if yDrew.2 then planningChildren ss font left w rest y
    else
      let txt := pyStrip (textContent child)
      if txt = "" ∨ child.tag ≠ "div" then planningChildren ss font left w rest y
      else
        if child.children.toList.any (fun c => blockTags.contains c.tag) then do
          textboxS (left + 12) y (w - 24) 14 "" 8 false FALLBACK_BLACK33 .left font true false
          renderRich child 8 true
          let y := y + 16
          let y ← renderBoxContent ss font left w 12 8 child.children y
          planningChildren ss font left w rest y
        else do
          textboxS (left + 12) y (w - 24) 14 "" 8 false FALLBACK_BLACK33 .left font true false
          renderRich child 8 false
          planningChildren ss font left w rest (y + 16)

/-- Embedding of `_planning_with_box`. -/
def planningWithBox (ss : SS) (font : String) (div : El) (st : Dict)
    (extBox : Option El) : RM Unit := do
  let top ← liftE (px (dGetD st "top" "0"))
  let left ← liftE (px (dGetD st "left" "0"))
  let w ← liftE (resolveWidth st "width" 900 SLIDE_W_PX)
  let box? := match extBox with
    | some b => some b
    | none => (selClass "section-box" div).head?
  match box? with
  | none => pure ()
  | some box => do
    let boxTopPx ← liftE (px (dGetD (sty box) "top" ""))
    let y := if (0 : Q).blt boxTopPx then boxTopPx else top + 28
    planningChildren ss font left w box.children.toList y

/-- Embedding of `_standalone_table`. -/
def standaloneTable (ss : SS) (font : String) (div : El) (st : Dict) : RM Unit := do
  let top ← liftE (px (dGetD st "top" "0"))
  let left ← liftE (px (dGetD st "left" "0"))
  let w ← liftE (resolveWidth st "width" 0 SLIDE_W_PX)
  let w := if w.beq 0 then SLIDE_W_PX - left - 20 else w
  match selTag "table" div with
  | [] => pure ()
  | tbl0 :: _ => do
    let tblW ← liftE (resolveWidth (sty tbl0) "width" 0 w)
    let w := if (0 : Q).blt tblW then tblW else w
    renderTable ss font tbl0 left top w false

/-! ## Content dispatcher (`_positioned_blocks`) -/

/-- Embedding of `_find_sibling_box`: the first of the next two siblings
whose class contains `section-box` or `trend-box`.  (The consumed-marking is
redundant, see the header comment.) -/
def findSiblingBox (allChildren : List El) (headerIdx : ℕ) : Option El :=
  ((allChildren.drop (headerIdx + 1)).take 2).find? (fun sib =>
    let sibCls := attrD sib "class" ""
    strContains sibCls "section-box" ∨ strContains sibCls "trend-box")

/-- The box lookup of the dispatcher's section arm: a `.section-box`
descendant of the header's container, else the next eligible sibling. -/
def resolveSectionBox (div : El) (allChildren : List El) (idx : ℕ) : Option El :=
  match (selClass "section-box" div).head? with
  | some b => some b
  | none => findSiblingBox allChildren idx

/-- The dispatcher's section arm for a resolved content box. -/
def dispatchSectionBoxArm (ss : SS) (font : String) (div : El) (st : Dict)
    (box : El) : RM Unit := do
  match ← liftE (hasProgressBar box) with
    | true => do
        sectionChrome ss font div st none
        planningWithBox ss font div st (some box)
    | false =>
      match selTag "table" box with
      | tbl0 :: _ => do
          sectionChrome ss font div st none
          let dashed := sectionTableDashed ss tbl0
          let secW ← liftE (resolveWidth st "width" 420 SLIDE_W_PX)
          let l ← liftE (px (dGetD st "left" "0"))
          let t ← liftE (px (dGetD st "top" "0"))
          renderTable ss font tbl0 l (t + 20) secW dashed
      | [] => sectionFullWithBox ss font div st (some box)

/-- The body of the dispatcher's section arm once the content box (child or
consumed sibling) has been resolved. -/
def dispatchSectionWithBox (ss : SS) (font : String) (div : El) (st : Dict) :
    Option El → RM Unit
  | none => sectionChrome ss font div st none
  | some box => dispatchSectionBoxArm ss font div st box

/-- The `has_section` arm of the dispatcher. -/
def dispatchSection (ss : SS) (font : String) (allChildren : List El) (idx : ℕ)
    (div : El) (st : Dict) : RM Unit :=
  dispatchSectionWithBox ss font div st (resolveSectionBox div allChildren idx)

/-- One iteration of the dispatcher loop, with all its skip rules. -/
def positionedOne (ss : SS) (font : String) (allChildren : List El) (idx : ℕ)
    (div : El) : RM Unit :=
  if div.tag ≠ "div" then pure ()
  else
    let st := sty div
    let divCls := attrD div "class" ""
    let hasPos := dGet st "position" = some "absolute"
    let hasCoords := dGetD st "top" "" ≠ "" ∧ dGetD st "left" "" ≠ ""
    if ¬ hasPos ∧ ¬ hasCoords then pure ()
    else if selClass "footer-bar" div ≠ [] ∨ selClass "bottom-bar" div ≠ [] ∨
        selClass "footer" div ≠ [] then pure ()
    else if strContains divCls "footer-bar" ∨ strContains divCls "bottom-bar" ∨
        divCls = "footer" then pure ()
    else if strContains divCls "page-number" ∨ strContains divCls "logo" then pure ()
    else if strContains divCls "top-bar" ∨ strContains divCls "date-box" then pure ()
    else if strContains divCls "main-title" then pure ()
    else if isLegendDiv div then pure ()
    else if selALink div ≠ [] ∧ selClass "section-header" div = [] then pure ()
    else if strContains divCls "section-box" then pure ()
    else if strContains divCls "trend-box" then pure ()
    else if selClass "section-header" div ≠ [] then
      dispatchSection ss font allChildren idx div st
    else if selTag "table" div ≠ [] then standaloneTable ss font div st
    else pure ()

def positionedBlocksGo (ss : SS) (font : String) (allChildren : List El) :
    ℕ → List El → RM Unit
  | _, [] => pure ()
  | idx, div :: rest => do
    positionedOne ss font allChildren idx div
    positionedBlocksGo ss font allChildren (idx + 1) rest

/-- Embedding of `_positioned_blocks` over the slide's direct children. -/
def positionedBlocks (ss : SS) (font : String) (el : El) : RM Unit :=
  positionedBlocksGo ss font el.children.toList 0 el.children.toList

/-! ## Legend and links -/

/-- Embedding of one `_legend` iteration. -/
def legendOne (font : String) (el : El) : RM Unit := do
  if ¬ isLegendDiv el then pure ()
  else do
    let st := sty el
    let bottom ← liftE (px (dGetD st "bottom" "50"))
    let lx ← liftE (px (dGetD st "left" "30"))
    let legFs ← liftE (px (dGetD st "font-size" "11"))
    let legColor := (← liftE (parseColor (dGetD st "color" ""))).getD FALLBACK_GREY66
    let ty := SLIDE_H_PX - bottom - 20
    textboxS lx ty 800 20 "" 8 false FALLBACK_BLACK33 .left font true false
    renderRich el (legFs * 0.75) false
    modifyLast (fun sh =>
      match sh with
      | .textbox l t w h wr an al runs =>
        .textbox l t w h wr an al (runs.map (fun r =>
          if r.color = none ∨ r.color = some FALLBACK_BLACK33 then
            { r with color := some legColor }
          else r))
      | other => other)

def legendPass (font : String) (el : El) : RM Unit :=
  (selDivStyle el).forM (legendOne font)

/-- `tb.text_frame.paragraphs[0].runs[0].font.underline = True`: raises
`IndexError` when the textbox just created holds no run (empty link text). -/
def underlineRun0 : RM Unit := fun s =>
  match s.getLast? with
  | some (.textbox l t w h wr an al runs) =>
    (match runs with
     | [] => (.error ⟨"IndexError", "list index out of range"⟩, s)
     | r :: rs =>
       (.ok (), s.dropLast ++ [.textbox l t w h wr an al ({ r with underline := true } :: rs)]))
  | _ => (.ok (), s)

def linkOne (font : String) (linkColor : RGB) (linkFs lx ty : Q) (a : El) : RM Unit := do
  let aSty := sty a
  let aColor := (← liftE (parseColor (dGetD aSty "color" ""))).getD linkColor
  let aFs ← if dGetD aSty "font-size" "" ≠ "" then do
      pure ((← liftE (px (dGetD aSty "font-size" ""))) * 0.75)
    else pure linkFs
  textboxS lx ty 300 15 (pyStrip (textContent a)) aFs false aColor .left font true false
  underlineRun0

/-- One `_links` iteration over a positioned div. -/
def linksDivOne (font : String) (linkColor : RGB) (linkFs : Q) (el : El) : RM Unit := do
  let st := sty el
  if dGet st "position" ≠ some "absolute" then pure ()
  else
    let links := selALink el
    if links.isEmpty ∨ selClass "section-header" el ≠ [] then pure ()
    else do
      let bottom ← liftE (px (dGetD st "bottom" "60"))
      let lx ← liftE (px (dGetD st "left" "30"))
      links.forM (linkOne font linkColor linkFs lx (SLIDE_H_PX - bottom - 15))

/-- One `_links` iteration over an anchor that is a direct child of the
slide (the source's `getparent() is not self.el` test). -/
def linksTopOne (font : String) (linkColor : RGB) (linkFs : Q) (a : El) : RM Unit := do
  let aSty := sty a
  let aTop ← liftE (px (dGetD aSty "top" ""))
  let aLeft ← liftE (px (dGetD aSty "left" "30"))
  let aBottom ← liftE (px (dGetD aSty "bottom" ""))
  let ty := if (0 : Q).blt aTop then aTop
            else if (0 : Q).blt aBottom then SLIDE_H_PX - aBottom - 15
            else SLIDE_H_PX - 75
  let aColor := (← liftE (parseColor (dGetD aSty "color" ""))).getD linkColor
  let aFs ← if dGetD aSty "font-size" "" ≠ "" then do
      pure ((← liftE (px (dGetD aSty "font-size" ""))) * 0.75)
    else pure linkFs
  textboxS aLeft ty 300 15 (pyStrip (textContent a)) aFs false aColor .left font true false
  underlineRun0

/-- Embedding of `_links`. -/
def linksPass (ss : SS) (font : String) (el : El) : RM Unit := do
  let linkCss := ssGet ss [".link-text"]
  let linkColor := (← liftE (parseColor (dGetD linkCss "color" ""))).getD FALLBACK_TEAL
  let linkFs ← liftE (px (dGetD linkCss "font-size" "12"))
  (selDivStyle el).forM (linksDivOne font linkColor (linkFs * 0.75))
  (el.children.toList.filter (fun a => a.tag = "a" ∧ hasClassTok a "link-text")).forM
    (linksTopOne font linkColor (linkFs * 0.75))

/-! ## Slide renderer and document assembly -/

/-- Embedding of `SlideRenderer.render`. -/
def renderSlide (ss : SS) (font : String) (el : El) : RM Unit := do
  chrome ss font el
  positionedBlocks ss font el
  legendPass font el
  linksPass ss font el

/-- The error placeholder textbox added by the `except` arm of
`html_to_pptx`. -/
def errorShape (e : PyErr) : Shape :=
  .textbox (E 30) (E 250) (E 900) (E 40) true false .left
    [⟨"Slide rendering error: " ++ e.msg, 10, false, false, false,
      some FALLBACK_RED_BULL, FALLBACK_FONT⟩]

/-- One slide of the output document: the fully rendered shape list, or — when
the renderer raised — the shapes already on the slide followed by the error
placeholder. -/
def renderSlideOut (ss : SS) (font : String) (el : El) : List Shape :=
  match (renderSlide ss font el).run with
  | (.ok _, shapes) => shapes
  | (.error e, shapes) => shapes ++ [errorShape e]

/-- `doc.cssselect('div.slide')`. -/
def slideEls (doc : El) : List El := selTagClass "div" "slide" doc

/-- Embedding of `html_to_pptx` on the parsed document: stylesheet and font
resolution, the zero-slide precondition, the per-slide render loop with its
exception containment, and serialisation (modelled as the identity). -/
def htmlToPptx (doc : El) : Except PyErr (List (List Shape)) :=
  let ss := parseStylesheet doc
  let font := resolveFont ss
  match slideEls doc with
  | [] => .error ⟨"ValueError", "No slides found in HTML (expected div.slide elements)"⟩
  | els => .ok (els.map (renderSlideOut ss font))

/-! # Theorems about the converter

The remainder of the file settles the frozen claims.  Helper lemmas come
first; each claim then has exactly one theorem (with a witness or a
counterexample where required). -/

/-! ## Helper lemmas -/

theorem RM.bind_def {α β : Type} (x : RM α) (f : α → RM β) (s : List Shape) :
    (x >>= f) s = match x s with
      | (.error e, s') => (.error e, s')
      | (.ok a, s') => f a s' := rfl

theorem RM.pure_def {α : Type} (a : α) (s : List Shape) :
    (pure a : RM α) s = (.ok a, s) := rfl

/-- Interpretation of `qSum` in `ℚ`. -/
theorem qSum_toRat (ws : List Q) : (qSum ws).toRat = ((ws.map Q.toRat).sum : ℚ) := by
  have main : ∀ (l : List Q) (a : Q),
      (l.foldl (· + ·) a).toRat = a.toRat + (l.map Q.toRat).sum := by
    intro l
    induction l with
    | nil => intro a; simp
    | cons x xs ih =>
      intro a
      simp only [List.foldl_cons, List.map_cons, List.sum_cons]
      rw [ih, Q.toRat_add]
      ring
  unfold qSum
  rw [main, Q.toRat_zero]
  ring

theorem Q.blt_zero_iff (w : Q) : (0 : Q).blt w = true ↔ 0 < w.toRat := by
  rw [Q.blt_iff, Q.toRat_zero]

theorem Q.beq_zero_iff (w : Q) : w.beq 0 = true ↔ w.toRat = 0 := by
  rw [Q.beq_iff, Q.toRat_zero]

/-- `ratOfNum` values are non-negative. -/
theorem ratOfNum_nonneg (cs : List Char) : 0 ≤ (ratOfNum cs).toRat := by
  unfold ratOfNum
  rw [Q.toRat_add]
  have h1 : 0 ≤ ((digitsVal (cs.takeWhile (· ≠ '.')) : Q)).toRat := by
    rw [Q.toRat_natCast]; positivity
  have h2 : 0 ≤ (Q.divN (digitsVal ((cs.dropWhile (· ≠ '.')).drop 1) : Q)
      (10 ^ ((cs.dropWhile (· ≠ '.')).drop 1).length)).toRat := by
    rw [Q.toRat_divN _ _ (pow_pos (by norm_num) _), Q.toRat_natCast]
    positivity
  linarith

/-- `px` never returns a negative number. -/
theorem px_nonneg (v : String) (q : Q) (h : px v = .ok q) : 0 ≤ q.toRat := by
  unfold px at h
  simp only [] at h
  split at h
  · cases h
    rw [Q.toRat_zero]
  · unfold pyFloat at h
    split at h
    · cases h
      exact ratOfNum_nonneg _
    · cases h

/-- `pct` never returns a negative number. -/
theorem pct_nonneg (v : String) (q : Q) (h : pct v = .ok q) : 0 ≤ q.toRat := by
  unfold pct at h
  simp only [] at h
  split at h
  · cases h
    rw [Q.toRat_zero]
  · split at h
    · unfold pyFloat at h
      split at h
      · cases h
        exact ratOfNum_nonneg _
      · cases h
    · cases h
      rw [Q.toRat_zero]

/-- `_resolve_width` output is non-negative whenever the default and the
container are. -/
theorem resolveWidth_nonneg (d : Dict) (k : String) (default containerW : Q)
    (hd : 0 ≤ default.toRat) (hc : 0 ≤ containerW.toRat) (q : Q)
    (h : resolveWidth d k default containerW = .ok q) : 0 ≤ q.toRat := by
  unfold resolveWidth at h
  simp only [bind, Except.bind] at h
  split at h
  · cases h; exact hd
  · cases hpx : px (dGetD d k "") with
    | error e => rw [hpx] at h; cases h
    | ok pxv =>
      rw [hpx] at h
      simp only at h
      split at h
      · cases h
        exact px_nonneg _ _ hpx
      · split at h
        · cases hpct : pct (dGetD d k "") with
          | error e => rw [hpct] at h; cases h
          | ok p =>
            rw [hpct] at h
            cases h
            rw [Q.toRat_divN _ _ (by norm_num), Q.toRat_mul]
            have := pct_nonneg _ _ hpct
            positivity
        · cases h; exact hd

/-- Every explicit first-row width is non-negative (container width
non-negative). -/
theorem explicitCellWidth_nonneg (ss : SS) (width : Q) (c : El)
    (hw : 0 ≤ width.toRat) (q : Q) (h : explicitCellWidth ss width c = .ok q) :
    0 ≤ q.toRat := by
  have class_go : ∀ (l : List String) (q : Q),
      classWidthGo ss width l = .ok q → 0 ≤ q.toRat := by
    intro l
    induction l with
    | nil =>
      intro q h
      unfold classWidthGo at h
      cases h
      rw [Q.toRat_zero]
    | cons cn rest ih =>
      intro q h
      unfold classWidthGo at h
      match rest, h with
      | [], h => exact resolveWidth_nonneg _ _ _ _ (le_of_eq Q.toRat_zero.symm) hw _ h
      | r :: rs, h =>
        simp only [bind, Except.bind] at h
        cases hcw : resolveWidth (ssGet ss ["." ++ cn]) "width" 0 width with
        | error e => rw [hcw] at h; cases h
        | ok cw =>
          rw [hcw] at h
          simp only at h
          split at h
          · cases h
            exact resolveWidth_nonneg _ _ _ _ (le_of_eq Q.toRat_zero.symm) hw _ hcw
          · exact ih _ h
  unfold explicitCellWidth at h
  simp only [bind, Except.bind] at h
  cases hcw : resolveWidth (sty c) "width" 0 width with
  | error e => rw [hcw] at h; cases h
  | ok cw =>
    rw [hcw] at h
    simp only at h
    split at h
    · split at h
      · exact class_go _ _ h
      · cases h
        exact resolveWidth_nonneg _ _ _ _ (le_of_eq Q.toRat_zero.symm) hw _ hcw
    · cases h
      exact resolveWidth_nonneg _ _ _ _ (le_of_eq Q.toRat_zero.symm) hw _ hcw

theorem explicitWidths_nonneg (ss : SS) (width : Q) (cells : List El)
    (hw : 0 ≤ width.toRat) (ws : List Q) (h : explicitWidths ss width cells = .ok ws) :
    ∀ w ∈ ws, 0 ≤ w.toRat := by
  induction cells generalizing ws with
  | nil =>
    unfold explicitWidths at h
    simp only [List.mapM_nil, pure, Except.pure] at h
    cases h
    intro w hw'
    cases hw'
  | cons c rest ih =>
    unfold explicitWidths at h
    rw [List.mapM_cons] at h
    simp only [bind, Except.bind, pure, Except.pure] at h
    cases hc : explicitCellWidth ss width c with
    | error e => rw [hc] at h; cases h
    | ok q =>
      rw [hc] at h
      simp only at h
      cases hrest : rest.mapM (explicitCellWidth ss width) with
      | error e => rw [hrest] at h; cases h
      | ok qs =>
        rw [hrest] at h
        simp only at h
        cases h
        intro w hw'
        rcases List.mem_cons.mp hw' with rfl | hmem
        · exact explicitCellWidth_nonneg ss width c hw _ hc
        · exact ih qs hrest w hmem

theorem Q.toRat_eq_of_beq {a b : Q} (h : a.beq b = true) : a.toRat = b.toRat :=
  (Q.beq_iff a b).mp h

theorem Q.toRat_eq_num {a : Q} {n : ℕ} [n.AtLeastTwo]
    (h : a.beq (OfNat.ofNat n) = true) : a.toRat = OfNat.ofNat n := by
  rw [Q.toRat_eq_of_beq h, Q.toRat_ofNat]

/-- Each resolved column contributes its explicit width when positive, and
the shared auto width otherwise; in total `S + n₀·a` for non-negative
explicit widths. -/
theorem sum_col_aux (a : Q) (l : List Q) (hnn : ∀ w ∈ l, 0 ≤ w.toRat) :
    ((l.map (fun w => if (0 : Q).blt w then w else a)).map Q.toRat).sum
      = (l.map Q.toRat).sum + (countAuto l : ℚ) * a.toRat := by
  induction l with
  | nil => simp [countAuto]
  | cons w l ih =>
    have hw : 0 ≤ w.toRat := hnn w (List.mem_cons_self w l)
    have hl : ∀ x ∈ l, 0 ≤ x.toRat := fun x hx => hnn x (List.mem_cons_of_mem w hx)
    by_cases hblt : (0 : Q).blt w = true
    · have hbeq : w.beq 0 = false := by
        by_contra hc
        have := (Q.beq_zero_iff w).mp (Bool.not_eq_false _ |>.mp hc)
        have := (Q.blt_zero_iff w).mp hblt
        linarith
      simp only [List.map_cons, List.sum_cons, hblt, if_true, countAuto,
        List.filter_cons, hbeq, Bool.false_eq_true, if_false]
      rw [ih hl]
      unfold countAuto
      ring
    · have hzero : w.toRat = 0 := by
        have hle : ¬ 0 < w.toRat := fun hc => hblt ((Q.blt_zero_iff w).mpr hc)
        linarith
      have hbeq : w.beq 0 = true := (Q.beq_zero_iff w).mpr hzero
      simp only [List.map_cons, List.sum_cons, hblt, Bool.false_eq_true, if_false,
        countAuto, List.filter_cons, hbeq, if_true]
      rw [ih hl, hzero]
      unfold countAuto
      simp only [List.length_cons]
      push_cast
      ring

/-- Value of the auto width in `ℚ` when at least one column is implicit. -/
theorem autoWidth_toRat (W : Q) (ws : List Q) (hauto : 0 < countAuto ws) :
    (autoWidth W ws).toRat
      = (W.toRat - (ws.map Q.toRat).sum) / (countAuto ws : ℚ) := by
  unfold autoWidth
  rw [if_pos (Nat.pos_iff_ne_zero.mp hauto)]
  rw [Nat.max_eq_left hauto]
  rw [Q.toRat_divN _ _ hauto, Q.toRat_sub, qSum_toRat]

/-- Claim C3: table column-width resolution.  For any first row of cells and
any non-negative total width, provided at least one column carries no
explicit width (the claim's mix of explicit and implicit columns): the
resolved column widths sum exactly to the total width, columns with a
positive explicit width keep it, and every implicit column receives the even
share `(W - sum(explicit)) / n_auto` of the remaining space.  The explicit
width itself is computed by `explicitWidths`, the embedding of the source's
first-row resolution (inline style first — pixel, then percentage — then
stylesheet class widths in class order). -/
theorem c3_table_column_widths (ss : SS) (W : Q) (cells : List El) (ws : List Q)
    (hW : 0 ≤ W.toRat)
    (hws : explicitWidths ss W cells = .ok ws)
    (hauto : 0 < countAuto ws) :
    ((colWidthsOf W ws).map Q.toRat).sum = W.toRat ∧
    (∀ i w, ws.get? i = some w → 0 < w.toRat → (colWidthsOf W ws).get? i = some w) ∧
    (∀ i w, ws.get? i = some w → w.toRat = 0 →
      ((colWidthsOf W ws).get? i).map Q.toRat
        = some ((W.toRat - (ws.map Q.toRat).sum) / (countAuto ws : ℚ))) := by
  have hnn := explicitWidths_nonneg ss W cells hW ws hws
  have hn0 : ((countAuto ws : ℚ)) ≠ 0 := by
    exact_mod_cast Nat.pos_iff_ne_zero.mp hauto
  refine ⟨?_, ?_, ?_⟩
  · unfold colWidthsOf
    rw [sum_col_aux _ _ hnn, autoWidth_toRat W ws hauto]
    field_simp
  · intro i w hi hpos
    unfold colWidthsOf
    rw [List.get?_map, hi]
    simp only [Option.map_some']
    rw [if_pos ((Q.blt_zero_iff w).mpr hpos)]
  · intro i w hi hzero
    have hblt : (0 : Q).blt w = false := by
      by_contra hc
      have := (Q.blt_zero_iff w).mp (Bool.not_eq_false _ |>.mp hc)
      linarith
    unfold colWidthsOf
    rw [List.get?_map, hi]
    simp only [Option.map_some', hblt, Bool.false_eq_true, if_false]
    rw [autoWidth_toRat W ws hauto]

def c3th1 : El := .mk "th" [("style", "width:200px")] "A" .nil ""
def c3th2 : El := .mk "th" [] "B" .nil ""
def c3ws : List Q := [ratOfNum ['2', '0', '0'], 0]

/-- Witness for C3: the claim's concrete scenario.  A two-column header row
(`th` 200px, `th` unset) with total width 400px resolves to columns
`[200, 200]`, summing to 400. -/
theorem c3_table_column_widths_witness :
    explicitWidths [] 400 [c3th1, c3th2] = .ok c3ws ∧
    countAuto c3ws = 1 ∧
    ((colWidthsOf 400 c3ws).map Q.toRat).sum = ((400 : Q)).toRat ∧
    (colWidthsOf 400 c3ws).map Q.toRat = [200, 200] := by
  refine ⟨by decide, by decide, ?_, ?_⟩
  · exact (c3_table_column_widths [] 400 [c3th1, c3th2] c3ws
      (by rw [Q.toRat_ofNat]; norm_num) (by decide) (by decide)).1
  · have h1 : (ratOfNum ['2', '0', '0']).toRat = 200 := Q.toRat_eq_num (by decide)
    have h2 : (autoWidth 400 c3ws).toRat = 200 := Q.toRat_eq_num (by decide)
    have hcw : colWidthsOf 400 c3ws = [ratOfNum ['2', '0', '0'], autoWidth 400 c3ws] := rfl
    rw [hcw]
    simp only [List.map_cons, List.map_nil, h1, h2]

/-- Counterexample to claim C7: a first row whose explicit widths already
consume the whole table width (`th` 400px of a 400px table, second column
unset).  The source performs no clamping: the implicit second column is
resolved to width `0` — an invisible column — contradicting the claim that
implicit columns are "never resolved to a negative or zero width". -/
theorem c7_counterexample :
    explicitWidths [] 400 [El.mk "th" [("style", "width:400px")] "A" .nil "",
        El.mk "th" [] "B" .nil ""]
      = .ok [ratOfNum ['4', '0', '0'], 0] ∧
    (([ratOfNum ['4', '0', '0'], (0 : Q)].map Q.toRat).sum) = (400 : ℚ) ∧
    (colWidthsOf 400 [ratOfNum ['4', '0', '0'], 0]).map Q.toRat = [400, 0] ∧
    ¬ (0 : ℚ) > 0 := by
  refine ⟨by decide, ?_, ?_, by norm_num⟩
  · have h1 : (ratOfNum ['4', '0', '0']).toRat = 400 := Q.toRat_eq_num (by decide)
    simp only [List.map_cons, List.map_nil, h1, Q.toRat_zero, List.sum_cons,
      List.sum_nil]
    norm_num
  · have h1 : (ratOfNum ['4', '0', '0']).toRat = 400 := Q.toRat_eq_num (by decide)
    have h2 : (autoWidth 400 [ratOfNum ['4', '0', '0'], 0]).toRat = 0 := by
      rw [Q.toRat_eq_of_beq (a := autoWidth 400 [ratOfNum ['4', '0', '0'], 0])
        (b := 0) (by decide), Q.toRat_zero]
    have hcw : colWidthsOf 400 [ratOfNum ['4', '0', '0'], 0]
        = [ratOfNum ['4', '0', '0'], autoWidth 400 [ratOfNum ['4', '0', '0'], 0]] := rfl
    rw [hcw]
    simp only [List.map_cons, List.map_nil, h1, h2]

/-- Claim C7, amended to what the source does: when the explicit first-row
widths sum to at least the table's total width and at least one column is
implicit, every implicit column is resolved to the value
`(W − sum(explicit)) / n_auto`, which is not positive; no clamping to a
positive minimum is performed anywhere. -/
theorem c7_no_clamping (W : Q) (ws : List Q)
    (hsum : W.toRat ≤ (ws.map Q.toRat).sum) (hauto : 0 < countAuto ws) :
    (autoWidth W ws).toRat = (W.toRat - (ws.map Q.toRat).sum) / (countAuto ws : ℚ) ∧
    (autoWidth W ws).toRat ≤ 0 ∧
    (∀ i w, ws.get? i = some w → w.toRat = 0 →
      (colWidthsOf W ws).get? i = some (autoWidth W ws)) := by
  have hval := autoWidth_toRat W ws hauto
  have hn : (0 : ℚ) < (countAuto ws : ℚ) := by exact_mod_cast hauto
  refine ⟨hval, ?_, ?_⟩
  · rw [hval]
    apply div_nonpos_of_nonpos_of_nonneg
    · linarith
    · linarith
  · intro i w hi hzero
    have hblt : (0 : Q).blt w = false := by
      by_contra hc
      have := (Q.blt_zero_iff w).mp (Bool.not_eq_false _ |>.mp hc)
      linarith
    unfold colWidthsOf
    rw [List.get?_map, hi]
    simp only [Option.map_some', hblt, Bool.false_eq_true, if_false]

/-- Witness for the amended C7 at the counterexample's table: the implicit
column receives exactly `(400 − 400) / 1 = 0`. -/
theorem c7_no_clamping_witness :
    (autoWidth 400 [ratOfNum ['4', '0', '0'], 0]).toRat
        = ((400 : Q).toRat - ([ratOfNum ['4', '0', '0'], (0 : Q)].map Q.toRat).sum)
          / (countAuto [ratOfNum ['4', '0', '0'], 0] : ℚ) ∧
    (autoWidth 400 [ratOfNum ['4', '0', '0'], 0]).toRat ≤ 0 := by
  have h := c7_no_clamping 400 [ratOfNum ['4', '0', '0'], 0]
    (by
      have h1 : (ratOfNum ['4', '0', '0']).toRat = 400 := Q.toRat_eq_num (by decide)
      simp only [List.map_cons, List.map_nil, h1, Q.toRat_zero, List.sum_cons, List.sum_nil]
      rw [Q.toRat_ofNat]
      norm_num)
    (by decide)
  exact ⟨h.1, h.2.1⟩

/-- Claim C2: for every parsed document with no `div.slide` element,
`html_to_pptx` raises the single defined call-terminating `ValueError` and
produces no output; and whenever at least one slide container is present the
call succeeds — every per-slide error is recovered inside the loop, so no
other error reaches the caller. -/
theorem c2_zero_slide_error (doc : El) :
    (slideEls doc = [] →
      htmlToPptx doc
        = .error ⟨"ValueError", "No slides found in HTML (expected div.slide elements)"⟩) ∧
    (slideEls doc ≠ [] →
      htmlToPptx doc
        = .ok ((slideEls doc).map
            (renderSlideOut (parseStylesheet doc) (resolveFont (parseStylesheet doc))))) := by
  constructor
  · intro h
    unfold htmlToPptx
    rw [h]
  · intro h
    unfold htmlToPptx
    cases hd : slideEls doc with
    | nil => exact absurd hd h
    | cons e es => rfl

def c2EmptyDoc : El := .mk "html" [] "" (.cons (.mk "body" [] "" .nil "") .nil) ""

def c2OneSlideDoc : El :=
  .mk "html" [] "" (.cons (.mk "div" [("class", "slide")] "" .nil "") .nil) ""

/-- Witness for C2: a document with an empty body raises the zero-slide
error; a document with one slide container succeeds. -/
theorem c2_zero_slide_error_witness :
    htmlToPptx c2EmptyDoc
      = .error ⟨"ValueError", "No slides found in HTML (expected div.slide elements)"⟩ ∧
    htmlToPptx c2OneSlideDoc
      = .ok ((slideEls c2OneSlideDoc).map
          (renderSlideOut (parseStylesheet c2OneSlideDoc)
            (resolveFont (parseStylesheet c2OneSlideDoc)))) :=
  ⟨(c2_zero_slide_error c2EmptyDoc).1 (by decide),
   (c2_zero_slide_error c2OneSlideDoc).2 (by decide)⟩

/-- Claim C5 fails on the code (code bug): `_resolve_width` is meant to
resolve percentages against the container, but its pixel branch fires first
because `_px("50%")` returns the positive numeric prefix `50`.  A width of
`50%` of a 400px container therefore resolves to `50`, not the
`400 · 50 / 100 = 200` the claim (and the `%` branch below the pixel branch)
prescribe. -/
theorem c5_percentage_width_bug :
    resolveWidth [("width", "50%")] "width" 0 400 = .ok (ratOfNum ['5', '0']) ∧
    (ratOfNum ['5', '0']).toRat = 50 ∧
    (400 : ℚ) * 50 / 100 = 200 ∧
    (50 : ℚ) ≠ 200 ∧
    resolveWidth [("width", "200px")] "width" 0 400 = .ok (ratOfNum ['2', '0', '0']) ∧
    resolveWidth [] "width" 7 400 = .ok 7 ∧
    resolveWidth [("width", "abc")] "width" 7 400 = .ok 7 :=
  ⟨by decide, Q.toRat_eq_num (by decide), by norm_num, by norm_num,
   by decide, by decide, by decide⟩

/-- Claim C6 fails on the code (code bug): `_parse_color` is total on
garbage (`.ok none`), but an `rgb()`/`rgba()` literal with a component above
255 reaches the `RGBColor` constructor, which raises `ValueError` instead of
returning `None`. -/
theorem c6_parse_color_raises :
    parseColor "rgb(300,0,0)"
      = .error ⟨"ValueError", "RGBColor() takes three integer values 0-255"⟩ ∧
    parseColor "rgba(0,0,999,1)"
      = .error ⟨"ValueError", "RGBColor() takes three integer values 0-255"⟩ ∧
    parseColor "completely-unparseable" = .ok none ∧
    parseColor "1px" = .ok none :=
  ⟨by decide, by decide, by decide, by decide⟩

/-! ## Claim C10: header-cell contrast override -/

/-- First run colour of the single table cell of a one-table shape list. -/
def firstCellRunColor : List Shape → Option (Option RGB)
  | [.table _ _ _ _ _ _ _ cells] =>
    match cells with
    | (c0 :: _) :: _ =>
      (match c0.runs with
       | r :: _ => some r.color
       | [] => none)
    | _ => none
  | _ => none

def c10DarkTbl : El :=
  .mk "table" [] ""
    (.cons (.mk "tr" [] ""
      (.cons (.mk "th" [("style", "background:#333333;color:red")] "X" .nil "") .nil) "")
    .nil) ""

def c10LightTbl : El :=
  .mk "table" [] ""
    (.cons (.mk "tr" [] ""
      (.cons (.mk "th" [("style", "background:#ffffff;color:red")] "X" .nil "") .nil) "")
    .nil) ""

def c10GreenTbl : El :=
  .mk "table" [] ""
    (.cons (.mk "tr" [] ""
      (.cons (.mk "th" [("style", "background:#7bed24;color:red")] "X" .nil "") .nil) "")
    .nil) ""

/-- The claim's luminance formula `0.299R + 0.587G + 0.114B` read in exact
real arithmetic — what the spec's threshold denotes mathematically, kept
for comparison with the program's double-arithmetic `luminance`. -/
def luminanceExact (c : RGB) : Q :=
  (0.299 : Q) * (c.r : Q) + (0.587 : Q) * (c.g : Q) + (0.114 : Q) * (c.b : Q)

/-- Counterexample to claim C10 as stated.  At the header background
`#7bed24` = (123, 237, 36) — likewise `#dcc203` = (220, 194, 3) — the
claim's luminance `0.299R + 0.587G + 0.114B` is exactly 180, so the claim
requires the run colour forced to white; but `_is_light` sums in IEEE
doubles, getting `180.00000000000003` (exactly
`6333186975989761 / 2^45`) `> 180`, so the code classifies the background
as light and keeps the resolved colour: the rendered cell's run stays red,
and red is not white. -/
theorem c10_counterexample :
    (luminanceExact ⟨123, 237, 36⟩).beq 180 = true ∧
    (180 : Q).blt (luminanceExact ⟨123, 237, 36⟩) = false ∧
    (luminance ⟨123, 237, 36⟩).beq ⟨6333186975989761, 35184372088832, by norm_num⟩ = true ∧
    isLight ⟨123, 237, 36⟩ = true ∧
    (luminanceExact ⟨220, 194, 3⟩).beq 180 = true ∧
    isLight ⟨220, 194, 3⟩ = true ∧
    thCellFillColor "th" (some ⟨123, 237, 36⟩) none ⟨0xFF, 0, 0⟩
      = (some ⟨123, 237, 36⟩, ⟨0xFF, 0, 0⟩) ∧
    firstCellRunColor ((renderTable [] "Arial" c10GreenTbl 0 0 400 false).run).2
      = some (some ⟨0xFF, 0, 0⟩) ∧
    (⟨0xFF, 0, 0⟩ : RGB) ≠ FALLBACK_WHITE :=
  ⟨by decide, by decide, by decide, by decide, by decide, by decide, by decide, by decide,
    by decide⟩

/-- Claim C10, amended to the arithmetic the program performs: a `th` whose
resolved background fill (cell background, else row background) has
**IEEE-double** luminance `0.299*R + 0.587*G + 0.114*B ≤ 180` as
`_is_light` computes it gets its run colour forced to white, overriding the
colour resolved from inline style, cell class or row style; when the double
luminance exceeds 180 the resolved colour is kept.  `luminance` here is the
exact value of the float sum, which differs from the claim's exact-real
formula at backgrounds such as `#7bed24` (see the counterexample).
`thCellFillColor` is the fill/colour step the embedded `_render_table`
applies to every cell; the two concrete conjuncts run the full table
renderer on a dark and a light header cell. -/
theorem c10_th_contrast_amended (tag : String) (cellBg trBg : Option RGB) (pre c : RGB)
    (htag : tag = "th") (hbg : pyOrO cellBg trBg = some c) :
    ((luminance c).toRat ≤ 180 →
      thCellFillColor tag cellBg trBg pre = (some c, FALLBACK_WHITE)) ∧
    (180 < (luminance c).toRat →
      thCellFillColor tag cellBg trBg pre = (some c, pre)) ∧
    firstCellRunColor ((renderTable [] "Arial" c10DarkTbl 0 0 400 false).run).2
      = some (some FALLBACK_WHITE) ∧
    firstCellRunColor ((renderTable [] "Arial" c10LightTbl 0 0 400 false).run).2
      = some (some ⟨0xFF, 0, 0⟩) := by
  subst htag
  have hlight : isLight c = true ↔ 180 < (luminance c).toRat := by
    unfold isLight
    rw [Q.blt_iff, Q.toRat_ofNat]
  refine ⟨?_, ?_, by decide, by decide⟩
  · intro hle
    have hl : isLight c = false := by
      rw [Bool.eq_false_iff]
      intro hc
      exact absurd (hlight.mp hc) (not_lt.mpr hle)
    unfold thCellFillColor
    simp [hbg, hl]
  · intro hgt
    have hl : isLight c = true := hlight.mpr hgt
    unfold thCellFillColor
    simp [hbg, hl]

/-- Witness for the amended C10 at a concrete dark header background
`(51,51,51)` (double luminance `50.99999999999999 ≤ 180`): the fill is
applied and the run colour is forced to white. -/
theorem c10_th_contrast_amended_witness :
    (luminance ⟨51, 51, 51⟩).toRat ≤ 180 ∧
    thCellFillColor "th" (some ⟨51, 51, 51⟩) none ⟨0xFF, 0, 0⟩
      = (some ⟨51, 51, 51⟩, FALLBACK_WHITE) := by
  have hle : (luminance ⟨51, 51, 51⟩).toRat ≤ 180 := by
    rw [Q.toRat_eq_of_beq (a := luminance ⟨51, 51, 51⟩)
      (b := ⟨7177611906121727, 140737488355328, by norm_num⟩) (by decide)]
    show ((7177611906121727 : ℤ) : ℚ) / ((140737488355328 : ℕ) : ℚ) ≤ 180
    norm_num
  exact ⟨hle, ((c10_th_contrast_amended "th" (some ⟨51, 51, 51⟩) none ⟨0xFF, 0, 0⟩ ⟨51, 51, 51⟩
    rfl rfl).1 hle)⟩

/-! ## Claim C1: per-slide fault isolation -/

def c1OkSlide : El :=
  .mk "div" [("class", "slide")] ""
    (.cons (.mk "div" [("class", "top-bar"), ("style", "height:8px;background:#444444")] ""
      .nil "") .nil) ""

def c1BadSlide : El :=
  .mk "div" [("class", "slide")] ""
    (.cons (.mk "div" [("style", "position:absolute;top:10px;left:10px")] ""
      (.cons (.mk "a" [("class", "link-text"), ("href", "#")] "" .nil "") .nil) "") .nil) ""

def c1Doc : El :=
  .mk "html" [] ""
    (.cons (.mk "body" [] "" (.cons c1OkSlide (.cons c1BadSlide (.cons c1OkSlide .nil))) "")
    .nil) ""

def c1PartialShapes : List Shape :=
  ((renderSlide (parseStylesheet c1Doc) (resolveFont (parseStylesheet c1Doc)) c1BadSlide).run).2

/-- Counterexample to claim C1 as stated.  In `c1Doc`, slide 2 of 3 holds a
positioned div with an empty `a.link-text` anchor; `_links` creates its
textbox (already on the slide) and then raises `IndexError` on `runs[0]`.
The output still has 3 slides, but the failed slide holds **two** shapes —
the partially rendered textbox followed by the error placeholder — not
"only a single error-text placeholder shape". -/
theorem c1_counterexample :
    (htmlToPptx c1Doc).map (fun out => out.map List.length) = .ok [1, 2, 1] ∧
    ((renderSlide (parseStylesheet c1Doc) (resolveFont (parseStylesheet c1Doc))
        c1BadSlide).run).1
      = .error ⟨"IndexError", "list index out of range"⟩ ∧
    (htmlToPptx c1Doc).map (fun out => out.map (fun s => s.get? 1))
      = .ok [none, some (errorShape ⟨"IndexError", "list index out of range"⟩), none] ∧
    (2 : ℕ) ≠ 1 :=
  ⟨rfl, rfl, rfl, by norm_num⟩

/-- Claim C1, amended to what the code does: for every document with at
least one slide container, `html_to_pptx` succeeds and returns one output
slide per `div.slide` element in source order, each depending only on its
own element (per-slide isolation): a slide whose render raises contains the
shapes already emitted before the exception **followed by** the error-text
placeholder; a slide whose render succeeds contains exactly its fully
rendered shapes. -/
theorem c1_fault_isolation (doc : El) (hs : slideEls doc ≠ []) :
    htmlToPptx doc
      = .ok ((slideEls doc).map
          (renderSlideOut (parseStylesheet doc) (resolveFont (parseStylesheet doc)))) ∧
    (htmlToPptx doc).map List.length = .ok (slideEls doc).length ∧
    (∀ i el e shapes, (slideEls doc).get? i = some el →
        (renderSlide (parseStylesheet doc) (resolveFont (parseStylesheet doc)) el).run
            = (.error e, shapes) →
        (htmlToPptx doc).map (fun out => out.get? i)
          = .ok (some (shapes ++ [errorShape e]))) ∧
    (∀ i el shapes, (slideEls doc).get? i = some el →
        (renderSlide (parseStylesheet doc) (resolveFont (parseStylesheet doc)) el).run
            = (.ok (), shapes) →
        (htmlToPptx doc).map (fun out => out.get? i) = .ok (some shapes)) := by
  have hmain : htmlToPptx doc
      = .ok ((slideEls doc).map
          (renderSlideOut (parseStylesheet doc) (resolveFont (parseStylesheet doc)))) := by
    unfold htmlToPptx
    cases hd : slideEls doc with
    | nil => exact absurd hd hs
    | cons e es => rfl
  refine ⟨hmain, ?_, ?_, ?_⟩
  · rw [hmain]
    simp [Except.map, List.length_map]
  · intro i el e shapes hi hrun
    rw [hmain]
    simp only [Except.map, List.get?_map, hi, Option.map_some']
    unfold renderSlideOut
    rw [hrun]
  · intro i el shapes hi hrun
    rw [hmain]
    simp only [Except.map, List.get?_map, hi, Option.map_some']
    unfold renderSlideOut
    rw [hrun]

/-- Witness for the amended C1 at `c1Doc`: three slides, and slide index 1 —
whose render raises `IndexError` — consists of its partial shapes plus the
placeholder. -/
theorem c1_fault_isolation_witness :
    slideEls c1Doc ≠ [] ∧
    (htmlToPptx c1Doc).map List.length = .ok 3 ∧
    (htmlToPptx c1Doc).map (fun out => out.get? 1)
      = .ok (some (c1PartialShapes ++ [errorShape ⟨"IndexError", "list index out of range"⟩])) := by
  have h := c1_fault_isolation c1Doc (by decide)
  refine ⟨by decide, ?_, ?_⟩
  · rw [h.2.1]
    decide
  · exact h.2.2.1 1 c1BadSlide ⟨"IndexError", "list index out of range"⟩ c1PartialShapes
      (by decide) rfl

/-! ## Claim C8: colour literal correctness -/

def lowHexLetters : List Char := ['a', 'b', 'c', 'd', 'e', 'f']

def digitChars : List Char := ['0', '1', '2', '3', '4'] ++ ['5', '6', '7', '8', '9']

def hexChars : List Char :=
  digitChars ++ lowHexLetters ++ lowHexLetters.map Char.toUpper

theorem hex_char_facts (c : Char) (h : c ∈ hexChars) :
    pySpace c = false ∧ isLowHex c.toLower = true ∧ hexVal c.toLower ≤ 15 := by
  fin_cases h <;> exact ⟨by decide, by decide, by decide⟩

theorem digit_char_facts (c : Char) (h : c ∈ digitChars) :
    pySpace c = false ∧ c.toLower = c ∧ c.isDigit = true := by
  fin_cases h <;> exact ⟨by decide, by decide, by decide⟩

theorem dropWhile_cons_false {p : Char → Bool} {x : Char} {xs : List Char}
    (h : p x = false) : List.dropWhile p (x :: xs) = x :: xs := by
  simp [List.dropWhile, h]

/-- `str.strip()` keeps a string whose first and last characters are not
whitespace. -/
theorem stripList_ends (l : List Char)
    (hh : ∀ c, l.head? = some c → pySpace c = false)
    (hl : ∀ c, l.getLast? = some c → pySpace c = false) :
    stripList l = l := by
  unfold stripList
  cases hcase : l with
  | nil => simp
  | cons x xs =>
    rw [dropWhile_cons_false (hh x (by rw [hcase]; rfl))]
    cases hrev : (x :: xs).reverse with
    | nil => simp at hrev
    | cons y ys =>
      have hy : (x :: xs).getLast? = some y := by
        rw [← List.head?_reverse, hrev]
        rfl
      rw [dropWhile_cons_false (hl y (by rw [hcase]; exact hy))]
      rw [← hrev, List.reverse_reverse]

/-- A cons-headed string differs from any string with different first two
characters. -/
theorem mkString_ne (c : Char) (rest : List Char) (t : String)
    (h : t.data.take 2 ≠ (c :: rest).take 2) : (⟨c :: rest⟩ : String) ≠ t := by
  intro hc
  exact h (by rw [← hc])

theorem matchHex6_not_hash (c : Char) (rest : List Char) (h : c ≠ '#') :
    matchHex6 (c :: rest) = none := by
  unfold matchHex6
  split
  · rename_i heq
    cases heq
    exact absurd rfl h
  · rfl

theorem matchHex3_not_hash (c : Char) (rest : List Char) (h : c ≠ '#') :
    matchHex3 (c :: rest) = none := by
  unfold matchHex3
  split
  · rename_i heq
    cases heq
    exact absurd rfl h
  · rfl

theorem takeWhile_append_all {p : Char → Bool} (l r : List Char)
    (h : ∀ x ∈ l, p x = true) :
    List.takeWhile p (l ++ r) = l ++ List.takeWhile p r := by
  induction l with
  | nil => simp
  | cons x xs ih =>
    simp [List.cons_append, List.takeWhile_cons, h x (List.mem_cons_self x xs),
      ih (fun y hy => h y (List.mem_cons_of_mem x hy))]

theorem dropWhile_append_all {p : Char → Bool} (l r : List Char)
    (h : ∀ x ∈ l, p x = true) :
    List.dropWhile p (l ++ r) = List.dropWhile p r := by
  induction l with
  | nil => simp
  | cons x xs ih =>
    simp only [List.cons_append, List.dropWhile_cons, h x (List.mem_cons_self x xs),
      if_true]
    exact ih (fun y hy => h y (List.mem_cons_of_mem x hy))

/-- `takeNum` on an all-digit run followed by a non-digit, non-space rest. -/
theorem takeNum_digits (a : List Char) (r : List Char) (ha : a ≠ [])
    (hd : ∀ x ∈ a, x ∈ digitChars)
    (hr : ∀ c, r.head? = some c → (pySpace c = false ∧ c.isDigit = false)) :
    takeNum (a ++ r) = some (digitsVal a, r) := by
  have hdig : ∀ x ∈ a, x.isDigit = true := fun x hx => (digit_char_facts x (hd x hx)).2.2
  have hnsp : ∀ x ∈ a, pySpace x = false := fun x hx => (digit_char_facts x (hd x hx)).1
  unfold takeNum
  simp only []
  have hdrop : List.dropWhile pySpace (a ++ r) = a ++ r := by
    cases a with
    | nil => exact absurd rfl ha
    | cons x xs =>
      exact dropWhile_cons_false (hnsp x (List.mem_cons_self x xs))
  rw [hdrop]
  have htake : List.takeWhile (fun c => c.isDigit) (a ++ r) = a := by
    rw [takeWhile_append_all a r hdig]
    cases hr' : r with
    | nil => simp
    | cons y ys =>
      rw [List.takeWhile_cons, (hr y (by rw [hr']; rfl)).2]
      simp
  rw [htake]
  have hne : a.isEmpty = false := by
    cases a with
    | nil => exact absurd rfl ha
    | cons _ _ => rfl
  rw [hne]
  simp only [Bool.false_eq_true, if_false]
  rw [List.drop_left]

theorem mkString_ne_head (c : Char) (rest : List Char) (t : String)
    (h : t.data.head? ≠ some c) : (⟨c :: rest⟩ : String) ≠ t := by
  intro hc
  exact h (by rw [← hc]; rfl)

theorem mapLower_digits (a : List Char) (hd : ∀ x ∈ a, x ∈ digitChars) :
    a.map Char.toLower = a := by
  rw [List.map_congr_left (fun x hx => (digit_char_facts x (hd x hx)).2.1)]
  exact List.map_id a

theorem matchHex6_hash (d1 d2 d3 d4 d5 d6 : Char)
    (h1 : isLowHex d1 = true) (h2 : isLowHex d2 = true) (h3 : isLowHex d3 = true)
    (h4 : isLowHex d4 = true) (h5 : isLowHex d5 = true) (h6 : isLowHex d6 = true) :
    matchHex6 ['#', d1, d2, d3, d4, d5, d6]
      = some (16 * hexVal d1 + hexVal d2, 16 * hexVal d3 + hexVal d4,
              16 * hexVal d5 + hexVal d6) := by
  unfold matchHex6
  simp [h1, h2, h3, h4, h5, h6]

/-- `_parse_color` on a six-digit hex literal of either case. -/
theorem parseColor_hex6 (c1 c2 c3 c4 c5 c6 : Char)
    (h1 : c1 ∈ hexChars) (h2 : c2 ∈ hexChars) (h3 : c3 ∈ hexChars)
    (h4 : c4 ∈ hexChars) (h5 : c5 ∈ hexChars) (h6 : c6 ∈ hexChars) :
    parseColor ⟨['#', c1, c2, c3, c4, c5, c6]⟩
      = .ok (some ⟨16 * hexVal c1.toLower + hexVal c2.toLower,
                   16 * hexVal c3.toLower + hexVal c4.toLower,
                   16 * hexVal c5.toLower + hexVal c6.toLower⟩) := by
  obtain ⟨hs1, hx1, hv1⟩ := hex_char_facts c1 h1
  obtain ⟨hs2, hx2, hv2⟩ := hex_char_facts c2 h2
  obtain ⟨hs3, hx3, hv3⟩ := hex_char_facts c3 h3
  obtain ⟨hs4, hx4, hv4⟩ := hex_char_facts c4 h4
  obtain ⟨hs5, hx5, hv5⟩ := hex_char_facts c5 h5
  obtain ⟨hs6, hx6, hv6⟩ := hex_char_facts c6 h6
  have hstrip : pyStrip ⟨['#', c1, c2, c3, c4, c5, c6]⟩ = ⟨['#', c1, c2, c3, c4, c5, c6]⟩ := by
    show (⟨stripList _⟩ : String) = _
    rw [stripList_ends]
    · intro c hc
      cases hc
      decide
    · intro c hc
      have : (['#', c1, c2, c3, c4, c5, c6] : List Char).getLast? = some c6 := rfl
      rw [this] at hc
      cases hc
      exact hs6
  have hlow : Char.toLower '#' = '#' := by decide
  have hlower : pyLower ⟨['#', c1, c2, c3, c4, c5, c6]⟩
      = ⟨['#', c1.toLower, c2.toLower, c3.toLower, c4.toLower, c5.toLower, c6.toLower]⟩ := by
    show (⟨List.map Char.toLower _⟩ : String) = _
    simp [List.map_cons, hlow]
  unfold parseColor
  rw [if_neg (mkString_ne_head '#' _ "" (by decide))]
  rw [hstrip, hlower]
  rw [if_neg (mkString_ne_head '#' _ "white" (by decide))]
  rw [if_neg (mkString_ne_head '#' _ "black" (by decide))]
  rw [if_neg (mkString_ne_head '#' _ "red" (by decide))]
  rw [if_neg (mkString_ne_head '#' _ "green" (by decide))]
  rw [if_neg (mkString_ne_head '#' _ "blue" (by decide))]
  rw [if_neg (mkString_ne_head '#' _ "transparent" (by decide))]
  rw [show (⟨['#', c1.toLower, c2.toLower, c3.toLower, c4.toLower, c5.toLower, c6.toLower]⟩ :
      String).data = ['#', c1.toLower, c2.toLower, c3.toLower, c4.toLower, c5.toLower,
        c6.toLower] from rfl]
  rw [matchHex6_hash _ _ _ _ _ _ hx1 hx2 hx3 hx4 hx5 hx6]
  have hb1 : 16 * hexVal c1.toLower + hexVal c2.toLower ≤ 255 := by omega
  have hb2 : 16 * hexVal c3.toLower + hexVal c4.toLower ≤ 255 := by omega
  have hb3 : 16 * hexVal c5.toLower + hexVal c6.toLower ≤ 255 := by omega
  simp [mkRGBColor, hb1, hb2, hb3, bind, Except.bind, pure, Except.pure]

theorem isPrefixOf_append (p rest : List Char) : p.isPrefixOf (p ++ rest) = true := by
  induction p with
  | nil => simp [List.isPrefixOf]
  | cons x xs ih => simp [List.isPrefixOf, ih]

/-- `matchRgbTriple` succeeds on `pre` followed by three comma-separated
digit groups; the trailing `tail` starts with a non-space non-digit. -/
theorem matchRgbTriple_append (pre a b c tail : List Char)
    (hna : a ≠ []) (hnb : b ≠ []) (hnc : c ≠ [])
    (hda : ∀ x ∈ a, x ∈ digitChars) (hdb : ∀ x ∈ b, x ∈ digitChars)
    (hdc : ∀ x ∈ c, x ∈ digitChars)
    (htl : ∀ ch, tail.head? = some ch → pySpace ch = false ∧ ch.isDigit = false) :
    matchRgbTriple pre (pre ++ (a ++ ',' :: (b ++ ',' :: (c ++ tail))))
      = some (digitsVal a, digitsVal b, digitsVal c) := by
  have hcomma : ∀ (r : List Char) (ch : Char), (',' :: r).head? = some ch →
      pySpace ch = false ∧ ch.isDigit = false := by
    intro r ch h
    cases h
    exact ⟨by decide, by decide⟩
  unfold matchRgbTriple
  rw [isPrefixOf_append, if_pos rfl, List.drop_left]
  simp only [bind, Option.bind]
  rw [takeNum_digits a (',' :: (b ++ ',' :: (c ++ tail))) hna hda (hcomma _)]
  simp only [bind, Option.bind]
  rw [dropWhile_cons_false (by decide : pySpace ',' = false)]
  rw [show expectChar ',' (',' :: (b ++ ',' :: (c ++ tail))) = some (b ++ ',' :: (c ++ tail))
    from rfl]
  simp only [bind, Option.bind]
  rw [takeNum_digits b (',' :: (c ++ tail)) hnb hdb (hcomma _)]
  simp only [bind, Option.bind]
  rw [dropWhile_cons_false (by decide : pySpace ',' = false)]
  rw [show expectChar ',' (',' :: (c ++ tail)) = some (c ++ tail) from rfl]
  simp only [bind, Option.bind]
  rw [takeNum_digits c tail hnc hdc htl]

/-- `_parse_color` on `rgb(a,b,c)` with decimal digit components. -/
theorem parseColor_rgb (a b c : List Char)
    (hna : a ≠ []) (hnb : b ≠ []) (hnc : c ≠ [])
    (hda : ∀ x ∈ a, x ∈ digitChars) (hdb : ∀ x ∈ b, x ∈ digitChars)
    (hdc : ∀ x ∈ c, x ∈ digitChars)
    (hva : digitsVal a ≤ 255) (hvb : digitsVal b ≤ 255) (hvc : digitsVal c ≤ 255) :
    parseColor ⟨'r' :: 'g' :: 'b' :: '(' :: (a ++ ',' :: (b ++ ',' :: (c ++ [')'])))⟩
      = .ok (some ⟨digitsVal a, digitsVal b, digitsVal c⟩) := by
  have hflat : ('r' :: 'g' :: 'b' :: '(' :: (a ++ ',' :: (b ++ ',' :: (c ++ [')']))))
      = ('r' :: 'g' :: 'b' :: '(' :: (a ++ ',' :: (b ++ ',' :: c))) ++ [')'] := by
    simp
  have hstrip : pyStrip ⟨'r' :: 'g' :: 'b' :: '(' :: (a ++ ',' :: (b ++ ',' :: (c ++ [')'])))⟩
      = ⟨'r' :: 'g' :: 'b' :: '(' :: (a ++ ',' :: (b ++ ',' :: (c ++ [')'])))⟩ := by
    show (⟨stripList _⟩ : String) = _
    rw [stripList_ends]
    · intro ch hc
      cases hc
      decide
    · intro ch hc
      rw [hflat, List.getLast?_concat] at hc
      cases hc
      decide
  have hlower : pyLower ⟨'r' :: 'g' :: 'b' :: '(' :: (a ++ ',' :: (b ++ ',' :: (c ++ [')'])))⟩
      = ⟨'r' :: 'g' :: 'b' :: '(' :: (a ++ ',' :: (b ++ ',' :: (c ++ [')'])))⟩ := by
    show (⟨List.map Char.toLower _⟩ : String) = _
    simp only [List.map_cons, List.map_append, List.map_nil, mapLower_digits a hda,
      mapLower_digits b hdb, mapLower_digits c hdc]
    rw [show Char.toLower 'r' = 'r' from by decide, show Char.toLower 'g' = 'g' from by decide,
      show Char.toLower 'b' = 'b' from by decide, show Char.toLower '(' = '(' from by decide,
      show Char.toLower ',' = ',' from by decide, show Char.toLower ')' = ')' from by decide]
  unfold parseColor
  rw [if_neg (mkString_ne_head 'r' _ "" (by decide))]
  rw [hstrip, hlower]
  rw [if_neg (mkString_ne_head 'r' _ "white" (by decide))]
  rw [if_neg (mkString_ne_head 'r' _ "black" (by decide))]
  rw [if_neg (mkString_ne 'r' _ "red"
    (by rw [show ('r' :: ('g' :: 'b' :: '(' :: (a ++ ',' :: (b ++ ',' :: (c ++ [')']))))).take 2
        = ['r', 'g'] from rfl]; decide))]
  rw [if_neg (mkString_ne_head 'r' _ "green" (by decide))]
  rw [if_neg (mkString_ne_head 'r' _ "blue" (by decide))]
  rw [if_neg (mkString_ne_head 'r' _ "transparent" (by decide))]
  rw [show (⟨'r' :: 'g' :: 'b' :: '(' :: (a ++ ',' :: (b ++ ',' :: (c ++ [')'])))⟩ :
      String).data = 'r' :: 'g' :: 'b' :: '(' :: (a ++ ',' :: (b ++ ',' :: (c ++ [')'])))
      from rfl]
  rw [matchHex6_not_hash 'r' _ (by decide), matchHex3_not_hash 'r' _ (by decide)]
  have htri : matchRgbTriple "rgb(".data
      ('r' :: 'g' :: 'b' :: '(' :: (a ++ ',' :: (b ++ ',' :: (c ++ [')']))))
      = some (digitsVal a, digitsVal b, digitsVal c) := by
    rw [show ("rgb(".data) = ['r', 'g', 'b', '('] from by decide]
    exact matchRgbTriple_append ['r', 'g', 'b', '('] a b c [')'] hna hnb hnc hda hdb hdc
      (by intro ch hc; cases hc; exact ⟨by decide, by decide⟩)
  rw [htri]
  show (do pure (some (← mkRGBColor (digitsVal a) (digitsVal b) (digitsVal c))) :
      Except PyErr (Option RGB)) = _
  have hmk : mkRGBColor (digitsVal a) (digitsVal b) (digitsVal c)
      = .ok ⟨digitsVal a, digitsVal b, digitsVal c⟩ := by
    unfold mkRGBColor
    rw [if_pos ⟨hva, hvb, hvc⟩]
  rw [hmk]
  rfl

/-- `_parse_color` on `rgba(a,b,c,α)`: the alpha component is never read. -/
theorem parseColor_rgba (a b c alpha : List Char)
    (hna : a ≠ []) (hnb : b ≠ []) (hnc : c ≠ [])
    (hda : ∀ x ∈ a, x ∈ digitChars) (hdb : ∀ x ∈ b, x ∈ digitChars)
    (hdc : ∀ x ∈ c, x ∈ digitChars)
    (hva : digitsVal a ≤ 255) (hvb : digitsVal b ≤ 255) (hvc : digitsVal c ≤ 255) :
    parseColor ⟨'r' :: 'g' :: 'b' :: 'a' :: '(' ::
        (a ++ ',' :: (b ++ ',' :: (c ++ ',' :: (alpha ++ [')']))))⟩
      = .ok (some ⟨digitsVal a, digitsVal b, digitsVal c⟩) := by
  have hflat : ('r' :: 'g' :: 'b' :: 'a' :: '(' ::
        (a ++ ',' :: (b ++ ',' :: (c ++ ',' :: (alpha ++ [')'])))))
      = ('r' :: 'g' :: 'b' :: 'a' :: '(' ::
        (a ++ ',' :: (b ++ ',' :: (c ++ ',' :: alpha)))) ++ [')'] := by
    simp
  have hstrip : pyStrip ⟨'r' :: 'g' :: 'b' :: 'a' :: '(' ::
        (a ++ ',' :: (b ++ ',' :: (c ++ ',' :: (alpha ++ [')']))))⟩
      = ⟨'r' :: 'g' :: 'b' :: 'a' :: '(' ::
        (a ++ ',' :: (b ++ ',' :: (c ++ ',' :: (alpha ++ [')']))))⟩ := by
    show (⟨stripList _⟩ : String) = _
    rw [stripList_ends]
    · intro ch hc
      cases hc
      decide
    · intro ch hc
      rw [hflat, List.getLast?_concat] at hc
      cases hc
      decide
  have hlower : pyLower ⟨'r' :: 'g' :: 'b' :: 'a' :: '(' ::
        (a ++ ',' :: (b ++ ',' :: (c ++ ',' :: (alpha ++ [')']))))⟩
      = ⟨'r' :: 'g' :: 'b' :: 'a' :: '(' ::
        (a ++ ',' :: (b ++ ',' :: (c ++ ',' :: (alpha.map Char.toLower ++ [')']))))⟩ := by
    show (⟨List.map Char.toLower _⟩ : String) = _
    simp only [List.map_cons, List.map_append, List.map_nil, mapLower_digits a hda,
      mapLower_digits b hdb, mapLower_digits c hdc]
    rw [show Char.toLower 'r' = 'r' from by decide, show Char.toLower 'g' = 'g' from by decide,
      show Char.toLower 'b' = 'b' from by decide, show Char.toLower 'a' = 'a' from by decide,
      show Char.toLower '(' = '(' from by decide,
      show Char.toLower ',' = ',' from by decide, show Char.toLower ')' = ')' from by decide]
  unfold parseColor
  rw [if_neg (mkString_ne_head 'r' _ "" (by decide))]
  rw [hstrip, hlower]
  rw [if_neg (mkString_ne_head 'r' _ "white" (by decide))]
  rw [if_neg (mkString_ne_head 'r' _ "black" (by decide))]
  rw [if_neg (mkString_ne 'r' _ "red"
    (by rw [show ('r' :: ('g' :: 'b' :: 'a' :: '(' ::
        (a ++ ',' :: (b ++ ',' :: (c ++ ',' :: (alpha.map Char.toLower ++ [')'])))))).take 2
        = ['r', 'g'] from rfl]; decide))]
  rw [if_neg (mkString_ne_head 'r' _ "green" (by decide))]
  rw [if_neg (mkString_ne_head 'r' _ "blue" (by decide))]
  rw [if_neg (mkString_ne_head 'r' _ "transparent" (by decide))]
  rw [show (⟨'r' :: 'g' :: 'b' :: 'a' :: '(' ::
      (a ++ ',' :: (b ++ ',' :: (c ++ ',' :: (alpha.map Char.toLower ++ [')']))))⟩ :
      String).data = 'r' :: 'g' :: 'b' :: 'a' :: '(' ::
      (a ++ ',' :: (b ++ ',' :: (c ++ ',' :: (alpha.map Char.toLower ++ [')'])))) from rfl]
  rw [matchHex6_not_hash 'r' _ (by decide), matchHex3_not_hash 'r' _ (by decide)]
  have hnotRgb : matchRgbTriple "rgb(".data
      ('r' :: 'g' :: 'b' :: 'a' :: '(' ::
        (a ++ ',' :: (b ++ ',' :: (c ++ ',' :: (alpha.map Char.toLower ++ [')'])))))
      = none := by
    unfold matchRgbTriple
    rw [show ("rgb(".data) = ['r', 'g', 'b', '('] from by decide]
    rw [show ((['r', 'g', 'b', '('] : List Char).isPrefixOf
      ('r' :: 'g' :: 'b' :: 'a' :: '(' ::
        (a ++ ',' :: (b ++ ',' :: (c ++ ',' :: (alpha.map Char.toLower ++ [')']))))))
      = false from rfl]
    rw [if_neg (by decide : ¬ (false = true))]
    rfl
  rw [hnotRgb]
  have htri : matchRgbTriple "rgba(".data
      ('r' :: 'g' :: 'b' :: 'a' :: '(' ::
        (a ++ ',' :: (b ++ ',' :: (c ++ ',' :: (alpha.map Char.toLower ++ [')'])))))
      = some (digitsVal a, digitsVal b, digitsVal c) := by
    rw [show ("rgba(".data) = ['r', 'g', 'b', 'a', '('] from by decide]
    exact matchRgbTriple_append ['r', 'g', 'b', 'a', '('] a b c
      (',' :: (alpha.map Char.toLower ++ [')'])) hna hnb hnc hda hdb hdc
      (by intro ch hc; cases hc; exact ⟨by decide, by decide⟩)
  rw [htri]
  show (do pure (some (← mkRGBColor (digitsVal a) (digitsVal b) (digitsVal c))) :
      Except PyErr (Option RGB)) = _
  have hmk : mkRGBColor (digitsVal a) (digitsVal b) (digitsVal c)
      = .ok ⟨digitsVal a, digitsVal b, digitsVal c⟩ := by
    unfold mkRGBColor
    rw [if_pos ⟨hva, hvb, hvc⟩]
  rw [hmk]
  rfl

/-- Claim C8: colour literal correctness.  Six-digit hex literals of any
letter case parse to exactly `(0xrr, 0xgg, 0xbb)`; each supported named
colour parses case-insensitively (after stripping) to its fixed triple and
`transparent` to `None`; `rgb(r,g,b)` parses to `(r,g,b)` and
`rgba(r,g,b,α)` discards an arbitrary alpha. -/
theorem c8_color_literals :
    (∀ c1 c2 c3 c4 c5 c6 : Char, c1 ∈ hexChars → c2 ∈ hexChars → c3 ∈ hexChars →
      c4 ∈ hexChars → c5 ∈ hexChars → c6 ∈ hexChars →
      parseColor ⟨['#', c1, c2, c3, c4, c5, c6]⟩
        = .ok (some ⟨16 * hexVal c1.toLower + hexVal c2.toLower,
                     16 * hexVal c3.toLower + hexVal c4.toLower,
                     16 * hexVal c5.toLower + hexVal c6.toLower⟩)) ∧
    (∀ s, pyLower (pyStrip s) = "white" → parseColor s = .ok (some ⟨0xFF, 0xFF, 0xFF⟩)) ∧
    (∀ s, pyLower (pyStrip s) = "black" → parseColor s = .ok (some ⟨0, 0, 0⟩)) ∧
    (∀ s, pyLower (pyStrip s) = "red" → parseColor s = .ok (some ⟨0xFF, 0, 0⟩)) ∧
    (∀ s, pyLower (pyStrip s) = "green" → parseColor s = .ok (some ⟨0, 0x80, 0⟩)) ∧
    (∀ s, pyLower (pyStrip s) = "blue" → parseColor s = .ok (some ⟨0, 0, 0xFF⟩)) ∧
    (∀ s, pyLower (pyStrip s) = "transparent" → parseColor s = .ok none) ∧
    (∀ a b c : List Char, a ≠ [] → b ≠ [] → c ≠ [] →
      (∀ x ∈ a, x ∈ digitChars) → (∀ x ∈ b, x ∈ digitChars) → (∀ x ∈ c, x ∈ digitChars) →
      digitsVal a ≤ 255 → digitsVal b ≤ 255 → digitsVal c ≤ 255 →
      parseColor ⟨'r' :: 'g' :: 'b' :: '(' :: (a ++ ',' :: (b ++ ',' :: (c ++ [')'])))⟩
        = .ok (some ⟨digitsVal a, digitsVal b, digitsVal c⟩)) ∧
    (∀ a b c alpha : List Char, a ≠ [] → b ≠ [] → c ≠ [] →
      (∀ x ∈ a, x ∈ digitChars) → (∀ x ∈ b, x ∈ digitChars) → (∀ x ∈ c, x ∈ digitChars) →
      digitsVal a ≤ 255 → digitsVal b ≤ 255 → digitsVal c ≤ 255 →
      parseColor ⟨'r' :: 'g' :: 'b' :: 'a' :: '(' ::
          (a ++ ',' :: (b ++ ',' :: (c ++ ',' :: (alpha ++ [')']))))⟩
        = .ok (some ⟨digitsVal a, digitsVal b, digitsVal c⟩)) := by
  have named : ∀ (s : String) (t : String), pyLower (pyStrip s) = t → s ≠ "" →
      parseColor s = (if t = "white" then .ok (some FALLBACK_WHITE)
        else if t = "black" then .ok (some ⟨0, 0, 0⟩)
        else if t = "red" then .ok (some ⟨0xFF, 0, 0⟩)
        else if t = "green" then .ok (some ⟨0, 0x80, 0⟩)
        else if t = "blue" then .ok (some ⟨0, 0, 0xFF⟩)
        else if t = "transparent" then .ok none
        else match matchHex6 t.data with
          | some (r, g, b) => do pure (some (← mkRGBColor r g b))
          | none => match matchHex3 t.data with
            | some (r, g, b) => do pure (some (← mkRGBColor r g b))
            | none => match matchRgbTriple "rgb(".data t.data with
              | some (r, g, b) => do pure (some (← mkRGBColor r g b))
              | none => match matchRgbTriple "rgba(".data t.data with
                | some (r, g, b) => do pure (some (← mkRGBColor r g b))
                | none => .ok none) := by
    intro s t hlt hne
    unfold parseColor
    rw [if_neg hne, hlt]
  have hnonempty : ∀ (s : String) (t : String), pyLower (pyStrip s) = t → t ≠ "" → s ≠ "" := by
    intro s t hlt htne hs
    apply htne
    rw [← hlt, hs]
    rfl
  refine ⟨fun c1 c2 c3 c4 c5 c6 h1 h2 h3 h4 h5 h6 =>
      parseColor_hex6 c1 c2 c3 c4 c5 c6 h1 h2 h3 h4 h5 h6,
    ?_, ?_, ?_, ?_, ?_, ?_,
    fun a b c hna hnb hnc hda hdb hdc hva hvb hvc =>
      parseColor_rgb a b c hna hnb hnc hda hdb hdc hva hvb hvc,
    fun a b c alpha hna hnb hnc hda hdb hdc hva hvb hvc =>
      parseColor_rgba a b c alpha hna hnb hnc hda hdb hdc hva hvb hvc⟩
  all_goals
    intro s hlt
  · rw [named s _ hlt (hnonempty s _ hlt (by decide))]; rfl
  · rw [named s _ hlt (hnonempty s _ hlt (by decide))]; rfl
  · rw [named s _ hlt (hnonempty s _ hlt (by decide))]; rfl
  · rw [named s _ hlt (hnonempty s _ hlt (by decide))]; rfl
  · rw [named s _ hlt (hnonempty s _ hlt (by decide))]; rfl
  · rw [named s _ hlt (hnonempty s _ hlt (by decide))]; rfl

/-- Witness for C8 at concrete literals: a mixed-case hex string, an
upper-case named colour with whitespace, `transparent`, `rgb(10,20,30)` and
`rgba(1,2,3,9)`. -/
theorem c8_color_literals_witness :
    parseColor "#A1b2C3" = .ok (some ⟨0xA1, 0xB2, 0xC3⟩) ∧
    parseColor " WHITE " = .ok (some ⟨0xFF, 0xFF, 0xFF⟩) ∧
    parseColor "transparent" = .ok none ∧
    parseColor "rgb(10,20,30)" = .ok (some ⟨10, 20, 30⟩) ∧
    parseColor "rgba(1,2,3,9)" = .ok (some ⟨1, 2, 3⟩) := by
  obtain ⟨hhex, hwhite, _, _, _, _, htrans, hrgb, hrgba⟩ := c8_color_literals
  refine ⟨?_, ?_, ?_, ?_, ?_⟩
  · have h := hhex 'A' '1' 'b' '2' 'C' '3' (by decide) (by decide) (by decide)
      (by decide) (by decide) (by decide)
    exact h.trans (by decide)
  · exact hwhite " WHITE " (by decide)
  · exact htrans "transparent" (by decide)
  · have h := hrgb ['1', '0'] ['2', '0'] ['3', '0'] (by decide) (by decide) (by decide)
      (by decide) (by decide) (by decide) (by decide) (by decide) (by decide)
    exact h.trans (by decide)
  · have h := hrgba ['1'] ['2'] ['3'] ['9'] (by decide) (by decide) (by decide)
      (by decide) (by decide) (by decide) (by decide) (by decide) (by decide)
    exact h.trans (by decide)

/-! ## Claim C4: sibling/nested pairing invariance -/

def c4spanTitle : El := .mk "span" [("class", "section-title")] "T" .nil ""

def c4hdrEl : El := .mk "div" [("class", "section-header")] "" (.cons c4spanTitle .nil) ""

def c4trendBox : El := .mk "div" [("class", "trend-box"), ("style", "height:40px")] "" .nil ""

def c4hdrDivN : El :=
  .mk "div" [("style", "position:absolute;top:100px;left:20px;width:300px")] ""
    (.cons c4hdrEl (.cons c4trendBox .nil)) ""

def c4hdrDivS : El :=
  .mk "div" [("style", "position:absolute;top:100px;left:20px;width:300px")] ""
    (.cons c4hdrEl .nil) ""

def c4slideN : El := .mk "div" [("class", "slide")] "" (.cons c4hdrDivN .nil) ""

def c4slideS : El :=
  .mk "div" [("class", "slide")] "" (.cons c4hdrDivS (.cons c4trendBox .nil)) ""

def c4pEl : El := .mk "p" [] "hello" .nil ""

def c4secBox : El :=
  .mk "div" [("class", "section-box"), ("style", "height:80px")] "" (.cons c4pEl .nil) ""

def c4hdrDivN2 : El :=
  .mk "div" [("style", "position:absolute;top:85px;left:20px;width:580px")] ""
    (.cons c4hdrEl (.cons c4secBox .nil)) ""

def c4hdrDivS2 : El :=
  .mk "div" [("style", "position:absolute;top:85px;left:20px;width:580px")] ""
    (.cons c4hdrEl .nil) ""

def c4slideN2 : El := .mk "div" [("class", "slide")] "" (.cons c4hdrDivN2 .nil) ""

def c4slideS2 : El :=
  .mk "div" [("class", "slide")] "" (.cons c4hdrDivS2 (.cons c4secBox .nil)) ""

/-- Counterexample to claim C4 as stated.  A `trend-box` carries a
content-box class for the sibling lookup (`_find_sibling_box` accepts
`section-box` or `trend-box`), but the nested lookup only queries
`.section-box`.  The same header + trend-box pair therefore classifies
differently: nested it is treated as a box-less header (2 shapes: separator
rule and title), as a sibling the box is found and its rectangle is drawn
(3 shapes) — the renders are not identical. -/
theorem c4_counterexample :
    strContains (attrD c4trendBox "class" "") "trend-box" = true ∧
    findSiblingBox [c4hdrDivS, c4trendBox] 0 = some c4trendBox ∧
    (selClass "section-box" c4hdrDivN).head? = none ∧
    (renderSlide [] "Arial" c4slideN).run.2.length = 2 ∧
    (renderSlide [] "Arial" c4slideS).run.2.length = 3 ∧
    (renderSlide [] "Arial" c4slideN).run.2 ≠ (renderSlide [] "Arial" c4slideS).run.2 :=
  ⟨rfl, rfl, rfl, rfl, rfl, by decide⟩

theorem resolveSectionBox_child (div : El) (ac : List El) (idx : ℕ) (box : El)
    (h : (selClass "section-box" div).head? = some box) :
    resolveSectionBox div ac idx = some box := by
  unfold resolveSectionBox
  rw [h]

theorem resolveSectionBox_sibling (div : El) (ac : List El) (idx : ℕ) (box : El)
    (h1 : (selClass "section-box" div).head? = none)
    (h2 : findSiblingBox ac idx = some box) :
    resolveSectionBox div ac idx = some box := by
  unfold resolveSectionBox
  rw [h1, h2]

/-- `_section_chrome` with an external box reads the container only through
its `.section-header` and `.section-title` query results. -/
theorem sectionChrome_congr (ss : SS) (font : String) (st : Dict) (b : El)
    (divN divS : El)
    (hhdr : selClass "section-header" divN = selClass "section-header" divS)
    (httl : selClass "section-title" divN = selClass "section-title" divS) :
    sectionChrome ss font divN st (some b) = sectionChrome ss font divS st (some b) := by
  unfold sectionChrome
  rw [hhdr, httl]

/-- `_section_full_with_box` with an external box reads the container only
through `_section_chrome`. -/
theorem sectionFullWithBox_congr (ss : SS) (font : String) (st : Dict) (b : El)
    (divN divS : El)
    (hhdr : selClass "section-header" divN = selClass "section-header" divS)
    (httl : selClass "section-title" divN = selClass "section-title" divS) :
    sectionFullWithBox ss font divN st (some b)
      = sectionFullWithBox ss font divS st (some b) := by
  unfold sectionFullWithBox
  rw [sectionChrome_congr ss font st b divN divS hhdr httl]

/-- The resolved-box dispatcher arm renders identically for two containers
with the same header and title queries, provided the box has no progress
bar and no table (the branches that drop the external box). -/
theorem dispatchSectionWithBox_congr (ss : SS) (font : String) (st : Dict)
    (box divN divS : El)
    (hhdr : selClass "section-header" divN = selClass "section-header" divS)
    (httl : selClass "section-title" divN = selClass "section-title" divS)
    (hpb : hasProgressBar box = .ok false)
    (htbl : selTag "table" box = []) :
    dispatchSectionWithBox ss font divN st (some box)
      = dispatchSectionWithBox ss font divS st (some box) := by
  show dispatchSectionBoxArm ss font divN st box = dispatchSectionBoxArm ss font divS st box
  unfold dispatchSectionBoxArm
  rw [hpb, htbl, sectionFullWithBox_congr ss font st box divN divS hhdr httl]
  rfl

/-- A sibling div whose class contains `section-box` is skipped by every
iteration of the dispatcher loop: the consumed box is never reprocessed as
its own block. -/
theorem positionedOne_consumed (ss : SS) (font : String) (ac : List El) (jdx : ℕ)
    (box : El) (hcls : strContains (attrD box "class" "") "section-box" = true) :
    positionedOne ss font ac jdx box = pure () := by
  unfold positionedOne
  simp only []
  split_ifs <;> rfl

/-- Claim C4, amended to the `section-box` pairing the code supports: for a
header container whose resolved content box is a `.section-box` child
(nested form) and a container with the same header/title queries whose box
is found as an eligible following sibling (sibling form), if the box has no
progress bar and no table, the dispatcher arm renders identical shapes, and
the consumed sibling box is skipped by every dispatcher-loop iteration, so
it is never reprocessed as its own block.  (For `trend-box` boxes, and for
boxes with a table or progress bar, the pairing is **not** invariant: see
the counterexample.) -/
theorem c4_section_pairing (ss : SS) (font : String) (acN acS : List El)
    (idxN idxS jdx : ℕ) (divN divS box : El) (st : Dict)
    (hnbox : (selClass "section-box" divN).head? = some box)
    (hsbox : (selClass "section-box" divS).head? = none)
    (hsib : findSiblingBox acS idxS = some box)
    (hhdr : selClass "section-header" divN = selClass "section-header" divS)
    (httl : selClass "section-title" divN = selClass "section-title" divS)
    (hpb : hasProgressBar box = .ok false)
    (htbl : selTag "table" box = [])
    (hcls : strContains (attrD box "class" "") "section-box" = true) :
    dispatchSection ss font acN idxN divN st = dispatchSection ss font acS idxS divS st ∧
    positionedOne ss font acS jdx box = pure () := by
  constructor
  · unfold dispatchSection
    rw [resolveSectionBox_child divN acN idxN box hnbox,
      resolveSectionBox_sibling divS acS idxS box hsbox hsib]
    exact dispatchSectionWithBox_congr ss font st box divN divS hhdr httl hpb htbl
  · exact positionedOne_consumed ss font acS jdx box hcls

/-- Witness for the amended C4 at a concrete header + `section-box` pair
expressed nested (`c4slideN2`) and as siblings (`c4slideS2`): all
hypotheses hold, the dispatcher arms agree, the consumed sibling renders
nothing on its own, and the two whole slides render identical shapes. -/
theorem c4_section_pairing_witness :
    (selClass "section-box" c4hdrDivN2).head? = some c4secBox ∧
    (selClass "section-box" c4hdrDivS2).head? = none ∧
    findSiblingBox [c4hdrDivS2, c4secBox] 0 = some c4secBox ∧
    selClass "section-header" c4hdrDivN2 = selClass "section-header" c4hdrDivS2 ∧
    selClass "section-title" c4hdrDivN2 = selClass "section-title" c4hdrDivS2 ∧
    hasProgressBar c4secBox = .ok false ∧
    selTag "table" c4secBox = [] ∧
    strContains (attrD c4secBox "class" "") "section-box" = true ∧
    dispatchSection [] "Arial" [c4hdrDivN2] 0 c4hdrDivN2 (sty c4hdrDivN2)
      = dispatchSection [] "Arial" [c4hdrDivS2, c4secBox] 0 c4hdrDivS2 (sty c4hdrDivN2) ∧
    positionedOne [] "Arial" [c4hdrDivS2, c4secBox] 1 c4secBox = pure () ∧
    (renderSlide [] "Arial" c4slideN2).run = (renderSlide [] "Arial" c4slideS2).run := by
  have h := c4_section_pairing [] "Arial" [c4hdrDivN2] [c4hdrDivS2, c4secBox] 0 0 1
    c4hdrDivN2 c4hdrDivS2 c4secBox (sty c4hdrDivN2) rfl rfl rfl rfl rfl rfl rfl rfl
  exact ⟨rfl, rfl, rfl, rfl, rfl, rfl, rfl, rfl, h.1, h.2, rfl⟩

end Pptx
